import Mathlib

set_option maxHeartbeats 1000000

/-! Shallow embedding of the BusTub buffer pool core, translated from
`src/buffer/lru_replacer.cpp` and `src/buffer/buffer_pool_manager_instance.cpp`.

Machine-integer notes: `page_id_t` is a 32-bit signed integer in the source;
the counter `next_page_id_` only ever advances by `num_instances_` per
allocation, so within its non-overflowing range it is modelled as `Int`
(with `INVALID_PAGE_ID = -1` as in the source).  `pin_count_` is an `int`
that starts at 0, is only incremented, and is decremented solely under a
`> 0` guard, so it is modelled as `Nat`.  Page payloads are abstracted to a
single value (`data : Nat`), with `0` standing for the zeroed buffer
produced by `ResetMemory`; the disk manager is an association from page id
to stored payload. -/

abbrev PageId := Int

def INVALID_PAGE_ID : PageId := -1

/-- A page frame: metadata plus page payload (see `Page` in the source). -/
structure Frame where
  page_id : PageId
  pin_count : Nat
  is_dirty : Bool
  data : Nat
deriving DecidableEq, Repr

instance : Inhabited Frame := ⟨⟨INVALID_PAGE_ID, 0, false, 0⟩⟩

/-- Association-list lookup, modelling `std::unordered_map::find`. -/
def alLookup {β : Type} : List (PageId × β) → PageId → Option β
  | [], _ => none
  | e :: t, k => if e.1 = k then some e.2 else alLookup t k

/-- Association-list insert-or-assign, modelling `map[k] = v`. -/
def alInsert {β : Type} : List (PageId × β) → PageId → β → List (PageId × β)
  | [], k, v => [(k, v)]
  | e :: t, k, v => if e.1 = k then (k, v) :: t else e :: alInsert t k v

/-- Association-list erase, modelling `std::unordered_map::erase`
(keys are unique in a map, so erasing the first hit erases the entry). -/
def alErase {β : Type} : List (PageId × β) → PageId → List (PageId × β)
  | [], _ => []
  | e :: t, k => if e.1 = k then t else e :: alErase t k

/-! ## LRU replacer (`src/buffer/lru_replacer.cpp`)

The source keeps a `std::list` of evictable frame ids (front = most recently
unpinned) together with a `std::unordered_map` from frame id to the node
holding it.  The list is `lru_list`; the map is modelled by its key list
`lru_map` (its values are the nodes, i.e. positions in `lru_list`; the node
for key `f` is the occurrence of `f` in the list, which is unique in every
state the source can reach). -/

structure Replacer where
  lru_list : List Nat
  lru_map : List Nat
  capacity : Nat
deriving DecidableEq, Repr

def mkReplacer (cap : Nat) : Replacer :=
  { lru_list := [], lru_map := [], capacity := cap }

/-- `LRUReplacer::Victim`: if the list (equivalently the map) is empty fail,
else remove and return the back element and drop its map entry. -/
def Replacer.victim (r : Replacer) : Option Nat × Replacer :=
  if r.lru_list.isEmpty || r.lru_map.isEmpty then (none, r)
  else
    let v := r.lru_list.getLastD 0
    (some v, { r with lru_list := r.lru_list.dropLast, lru_map := r.lru_map.erase v })

/-- `lru_list_.splice(lru_list_.begin(), lru_list_, it)` where `it` is the
node holding `f`: move `f`'s node to the front, keeping the rest in order. -/
def spliceToFront (l : List Nat) (f : Nat) : List Nat := f :: l.erase f

/-- `LRUReplacer::Pin`: no-op if `f` is not a map key; else splice `f`'s node
to the front, `pop_front`, and erase the map entry. -/
def Replacer.pin (r : Replacer) (f : Nat) : Replacer :=
  if f ∈ r.lru_map then
    { r with lru_list := (spliceToFront r.lru_list f).tail, lru_map := r.lru_map.erase f }
  else r

/-- `LRUReplacer::Unpin`: no-op if `f` is already a map key or the map is at
capacity; else `push_front` and record the map entry. -/
def Replacer.unpin (r : Replacer) (f : Nat) : Replacer :=
  if f ∈ r.lru_map ∨ r.lru_map.length = r.capacity then r
  else { r with lru_list := f :: r.lru_list, lru_map := f :: r.lru_map }

/-! ## Buffer pool manager instance (`src/buffer/buffer_pool_manager_instance.cpp`) -/

structure BPMI where
  pool_size : Nat
  num_instances : Nat
  instance_index : Nat
  next_page_id : Int
  pages : List Frame
  page_table : List (PageId × Nat)
  free_list : List Nat
  replacer : Replacer
  disk : List (PageId × Nat)
deriving DecidableEq, Repr

/-- `DiskManager::WritePage`. -/
def diskWrite (d : List (PageId × Nat)) (pid : PageId) (v : Nat) : List (PageId × Nat) :=
  alInsert d pid v

/-- `DiskManager::ReadPage` (unspecified contents of an unwritten page read as 0). -/
def diskRead (d : List (PageId × Nat)) (pid : PageId) : Nat :=
  (alLookup d pid).getD 0

/-- In-place update of `pages_[i]` (no-op when `i` is out of range). -/
def updateFrame : List Frame → Nat → (Frame → Frame) → List Frame
  | [], _, _ => []
  | f :: t, 0, g => g f :: t
  | f :: t, n + 1, g => f :: updateFrame t n g

/-- The frame `pages_[i]`. -/
def frameAt (s : BPMI) (i : Nat) : Frame := s.pages.getD i default

/-- The two-argument constructor: all frames zeroed and unbound, every frame
id in the free list, replacer of capacity `pool_size`, `next_page_id_`
starting at `instance_index`. -/
def mkBPMI (pool_size num_instances instance_index : Nat) : BPMI :=
  { pool_size := pool_size
    num_instances := num_instances
    instance_index := instance_index
    next_page_id := (instance_index : Int)
    pages := List.replicate pool_size default
    page_table := []
    free_list := List.range pool_size
    replacer := mkReplacer pool_size
    disk := [] }

/-- `AllocatePage`: return `next_page_id_` and advance it by `num_instances_`. -/
def allocatePage (s : BPMI) : PageId × BPMI :=
  (s.next_page_id, { s with next_page_id := s.next_page_id + s.num_instances })

/-- The victim-frame acquisition discipline shared verbatim by `NewPgImp`
(lines 85-115) and the miss path of `FetchPgImp` (lines 154-179): free list
first; if the free list is empty and every frame is pinned, fail; otherwise
ask the replacer, and on success write the victim back if dirty and erase
its old page-table entry.  The third component records whether
`replacer_->Victim` was called. -/
def getVictimFrame (s : BPMI) : Option Nat × BPMI × Bool :=
  match s.free_list with
  | fid :: rest => (some fid, { s with free_list := rest }, false)
  | [] =>
    if s.pages.all (fun p => p.pin_count != 0) then (none, s, false)
    else
      match s.replacer.victim with
      | (none, r1) => (none, { s with replacer := r1 }, true)
      | (some fid, r1) =>
        let pg := s.pages.getD fid default
        let s1 := { s with replacer := r1 }
        let s2 := if pg.is_dirty then { s1 with disk := diskWrite s1.disk pg.page_id pg.data } else s1
        (some fid, { s2 with page_table := alErase s2.page_table pg.page_id }, true)

/-- The binding tail shared by `NewPgImp` (lines 119-128) and the miss path
of `FetchPgImp` (lines 183-189): install `(pid, fid)` in the page table, set
the frame's metadata (`pin_count_++` on the prior value), load `newData`
into the buffer, and `Pin` the frame in the replacer. -/
def bindFrame (s : BPMI) (pid : PageId) (fid : Nat) (newData : Nat) : BPMI :=
  { s with
    page_table := alInsert s.page_table pid fid
    pages := updateFrame s.pages fid
      (fun f => { page_id := pid, is_dirty := false, pin_count := f.pin_count + 1, data := newData })
    replacer := s.replacer.pin fid }

/-- `NewPgImp`: allocate a page id (before taking the latch), acquire a
frame, and on success bind it with a zeroed buffer. -/
def newPage (s : BPMI) : Option (PageId × Nat) × BPMI :=
  match getVictimFrame (allocatePage s).2 with
  | (none, s1, _) => (none, s1)
  | (some fid, s1, _) => (some ((allocatePage s).1, fid), bindFrame s1 (allocatePage s).1 fid 0)

/-- `FetchPgImp`: on a hit increment the pin count and `Pin` in the
replacer; on a miss acquire a frame and bind it with the page read from
disk. -/
def fetchPage (s : BPMI) (pid : PageId) : Option Nat × BPMI :=
  match alLookup s.page_table pid with
  | some fid =>
    (some fid, { s with
      pages := updateFrame s.pages fid (fun f => { f with pin_count := f.pin_count + 1 })
      replacer := s.replacer.pin fid })
  | none =>
    match getVictimFrame s with
    | (none, s1, _) => (none, s1)
    | (some fid, s1, _) => (some fid, bindFrame s1 pid fid (diskRead s1.disk pid))

/-- `UnpinPgImp`: fail on a non-resident page; overwrite the dirty flag
(source line 233, before the pin-count check); fail on `pin_count <= 0`;
else decrement, and when the count reaches zero `Unpin` in the replacer. -/
def unpinPage (s : BPMI) (pid : PageId) (d : Bool) : Bool × BPMI :=
  match alLookup s.page_table pid with
  | none => (false, s)
  | some fid =>
    let s1 := { s with pages := updateFrame s.pages fid (fun f => { f with is_dirty := d }) }
    if (s1.pages.getD fid default).pin_count = 0 then (false, s1)
    else
      let s2 := { s1 with pages := updateFrame s1.pages fid (fun f => { f with pin_count := f.pin_count - 1 }) }
      let s3 := if (s2.pages.getD fid default).pin_count = 0
                then { s2 with replacer := s2.replacer.unpin fid } else s2
      (true, s3)

/-- `FlushPgImp`: fail on a non-resident page; else write the frame's data
to disk at the frame's own page id and clear the dirty flag. -/
def flushPage (s : BPMI) (pid : PageId) : Bool × BPMI :=
  match alLookup s.page_table pid with
  | none => (false, s)
  | some fid =>
    let pg := s.pages.getD fid default
    (true, { s with
      disk := diskWrite s.disk pg.page_id pg.data
      pages := updateFrame s.pages fid (fun f => { f with is_dirty := false }) })

/-- One iteration of the `FlushAllPgsImp` loop body on entry `e`. -/
def flushEntry (acc : BPMI) (e : PageId × Nat) : BPMI :=
  { acc with
    disk := diskWrite acc.disk (acc.pages.getD e.2 default).page_id
      (acc.pages.getD e.2 default).data
    pages := updateFrame acc.pages e.2 (fun f => { f with is_dirty := false }) }

/-- `FlushAllPgsImp`: write back every page-table entry and clear its dirty
flag (unconditionally, as in the source). -/
def flushAllPages (s : BPMI) : BPMI :=
  s.page_table.foldl flushEntry s

/-- `DeletePgImp`: absent page is success; a pinned page refuses; otherwise
write back if dirty, reset the frame, push the frame id onto the back of the
free list, and erase the page-table entry. -/
def deletePage (s : BPMI) (pid : PageId) : Bool × BPMI :=
  match alLookup s.page_table pid with
  | none => (true, s)
  | some fid =>
    let pg := s.pages.getD fid default
    if pg.pin_count ≠ 0 then (false, s)
    else
      let s1 := if pg.is_dirty then { s with disk := diskWrite s.disk pg.page_id pg.data } else s
      (true, { s1 with
        pages := updateFrame s1.pages fid
          (fun f => { f with page_id := INVALID_PAGE_ID, is_dirty := false, data := 0 })
        free_list := s1.free_list ++ [fid]
        page_table := alErase s1.page_table pid })

/-! ## Traces of public operations -/

inductive Op where
  | newP : Op
  | fetch : PageId → Op
  | unpin : PageId → Bool → Op
  | flush : PageId → Op
  | flushAll : Op
  | delete : PageId → Op
deriving DecidableEq, Repr

def stepOp (s : BPMI) : Op → BPMI
  | Op.newP => (newPage s).2
  | Op.fetch pid => (fetchPage s pid).2
  | Op.unpin pid d => (unpinPage s pid d).2
  | Op.flush pid => (flushPage s pid).2
  | Op.flushAll => flushAllPages s
  | Op.delete pid => (deletePage s pid).2

def run (s : BPMI) : List Op → BPMI
  | [] => s
  | op :: ops => run (stepOp s op) ops

/-- The page id (if any) returned by one operation of a trace: only a
successful `NewPage` returns a freshly allocated id. -/
def newPageHead (op : Op) (o : Option (PageId × Nat)) : List PageId :=
  if op = Op.newP then (o.map Prod.fst).toList else []

/-- Page ids returned by the `NewPage` calls of a trace. -/
def newPageIds : BPMI → List Op → List PageId
  | _, [] => []
  | s, op :: ops => newPageHead op (newPage s).1 ++ newPageIds (stepOp s op) ops

/-- `n` successive `FetchPage pid` calls. -/
def iterFetch (pid : PageId) : Nat → BPMI → BPMI
  | 0, s => s
  | n + 1, s => iterFetch pid n (fetchPage s pid).2

/-- `n` successive `UnpinPage(pid, false)` calls; the flag records whether
every call succeeded. -/
def iterUnpin (pid : PageId) : Nat → BPMI → Bool × BPMI
  | 0, s => (true, s)
  | n + 1, s =>
    ((unpinPage s pid false).1 && (iterUnpin pid n (unpinPage s pid false).2).1,
     (iterUnpin pid n (unpinPage s pid false).2).2)

/-- A well-used operation: `FetchPage` is only invoked on page ids below the
current allocation counter (in particular, on previously allocated ids). -/
def validOp (s : BPMI) : Op → Bool
  | Op.fetch pid => decide (pid < s.next_page_id)
  | _ => true

def validTrace : BPMI → List Op → Bool
  | _, [] => true
  | s, op :: ops => validOp s op && validTrace (stepOp s op) ops

/-! ## Derived observation sets -/

def residentFrameIds (s : BPMI) : List Nat := s.page_table.map Prod.snd

def pinnedResident (s : BPMI) : List Nat :=
  (residentFrameIds s).filter (fun fid => (s.pages.getD fid default).pin_count != 0)

def unpinnedResident (s : BPMI) : List Nat :=
  (residentFrameIds s).filter (fun fid => (s.pages.getD fid default).pin_count == 0)

def evictableIds (s : BPMI) : List Nat := s.replacer.lru_list

/-- The inductive invariant of BPMI states reachable by well-used traces:
every frame is free or resident (with the page table's entries keyed by the
resident page ids, all below the allocation counter), the replacer's map
and list agree, evictable frames are unpinned, and every unpinned resident
frame is evictable.  Note there is no converse for the last point: a frame
freed by `DeletePage` may stay in the replacer. -/
structure StateInv (s : BPMI) : Prop where
  pages_len : s.pages.length = s.pool_size
  cap_eq : s.replacer.capacity = s.pool_size
  num_pos : 0 < s.num_instances
  free_nodup : s.free_list.Nodup
  keys_nodup : (s.page_table.map Prod.fst).Nodup
  vals_nodup : (s.page_table.map Prod.snd).Nodup
  free_disjoint : ∀ g ∈ s.free_list, g ∉ s.page_table.map Prod.snd
  frame_complete : ∀ g, g < s.pool_size ↔ (g ∈ s.free_list ∨ g ∈ s.page_table.map Prod.snd)
  table_pageid : ∀ e ∈ s.page_table, (s.pages.getD e.2 default).page_id = e.1
  keys_lt_next : ∀ e ∈ s.page_table, e.1 < s.next_page_id
  map_eq_list : s.replacer.lru_map = s.replacer.lru_list
  lru_nodup : s.replacer.lru_list.Nodup
  lru_lt : ∀ g ∈ s.replacer.lru_list, g < s.pool_size
  lru_pin0 : ∀ g ∈ s.replacer.lru_list, (s.pages.getD g default).pin_count = 0
  resident_pin0_lru : ∀ e ∈ s.page_table,
    (s.pages.getD e.2 default).pin_count = 0 → e.2 ∈ s.replacer.lru_list

/-- The state of the invariant right after the victim-acquisition phase:
frame `fid` has been detached (it is neither free nor resident) and is about
to be bound. -/
structure AcqInv (t : BPMI) (fid : Nat) : Prop where
  pages_len : t.pages.length = t.pool_size
  cap_eq : t.replacer.capacity = t.pool_size
  num_pos : 0 < t.num_instances
  free_nodup : t.free_list.Nodup
  keys_nodup : (t.page_table.map Prod.fst).Nodup
  vals_nodup : (t.page_table.map Prod.snd).Nodup
  free_disjoint : ∀ g ∈ t.free_list, g ∉ t.page_table.map Prod.snd
  fid_lt : fid < t.pool_size
  fid_not_free : fid ∉ t.free_list
  fid_not_resident : fid ∉ t.page_table.map Prod.snd
  frame_complete : ∀ g, g < t.pool_size ↔ (g = fid ∨ g ∈ t.free_list ∨ g ∈ t.page_table.map Prod.snd)
  table_pageid : ∀ e ∈ t.page_table, (t.pages.getD e.2 default).page_id = e.1
  keys_lt_next : ∀ e ∈ t.page_table, e.1 < t.next_page_id
  map_eq_list : t.replacer.lru_map = t.replacer.lru_list
  lru_nodup : t.replacer.lru_list.Nodup
  lru_lt : ∀ g ∈ t.replacer.lru_list, g < t.pool_size
  lru_pin0 : ∀ g ∈ t.replacer.lru_list, (t.pages.getD g default).pin_count = 0
  resident_pin0_lru : ∀ e ∈ t.page_table,
    (t.pages.getD e.2 default).pin_count = 0 → e.2 ∈ t.replacer.lru_list

/-! ## Basic lemmas about the embedding's data structures -/

lemma getLastD_mem (l : List Nat) (d : Nat) (h : l ≠ []) : l.getLastD d ∈ l := by
  induction l generalizing d with
  | nil => exact absurd rfl h
  | cons a t ih =>
    rw [List.getLastD_cons]
    cases t with
    | nil => simp
    | cons b t2 => exact List.mem_cons_of_mem a (ih a (by simp))

lemma erase_getLastD (l : List Nat) (d : Nat) (hnd : l.Nodup) (h : l ≠ []) :
    l.erase (l.getLastD d) = l.dropLast := by
  induction l generalizing d with
  | nil => exact absurd rfl h
  | cons a t ih =>
    rw [List.getLastD_cons]
    cases t with
    | nil => simp
    | cons b t2 =>
      have hmem : (b :: t2).getLastD a ∈ b :: t2 := getLastD_mem _ a (by simp)
      have hna : a ∉ b :: t2 := (List.nodup_cons.mp hnd).1
      have h1 : ¬((a : Nat) == (b :: t2).getLastD a) = true := by
        simp only [beq_iff_eq]
        exact fun he => hna (he ▸ hmem)
      rw [List.erase_cons_tail h1, ih a (List.nodup_cons.mp hnd).2 (by simp)]
      simp [List.dropLast]

lemma length_lt_of_nodup_ub (l : List Nat) (n a : Nat) (hnd : l.Nodup)
    (hub : ∀ x ∈ l, x < n) (ha : a < n) (hna : a ∉ l) : l.length < n := by
  have hn2 : (a :: l).Nodup := List.nodup_cons.mpr ⟨hna, hnd⟩
  have hsub : (a :: l).toFinset ⊆ Finset.range n := by
    intro x hx
    rw [List.mem_toFinset, List.mem_cons] at hx
    rw [Finset.mem_range]
    rcases hx with hx | hx
    · exact hx ▸ ha
    · exact hub x hx
  have hc := Finset.card_le_card hsub
  rw [List.toFinset_card_of_nodup hn2, Finset.card_range] at hc
  simpa [Nat.succ_le_iff] using hc

lemma length_eq_of_nodup_iff_lt (l : List Nat) (n : Nat) (hnd : l.Nodup)
    (hiff : ∀ x, x ∈ l ↔ x < n) : l.length = n := by
  have hts : l.toFinset = Finset.range n := by
    apply Finset.ext
    intro x
    rw [List.mem_toFinset, Finset.mem_range]
    exact hiff x
  calc l.length = l.toFinset.card := (List.toFinset_card_of_nodup hnd).symm
    _ = n := by rw [hts, Finset.card_range]

lemma alLookup_eq_none {β : Type} (t : List (PageId × β)) (k : PageId) :
    alLookup t k = none ↔ k ∉ t.map Prod.fst := by
  induction t with
  | nil => simp [alLookup]
  | cons e t ih =>
    by_cases h : e.1 = k
    · simp [alLookup, h]
    · simp only [alLookup, if_neg h, List.map_cons, List.mem_cons]
      rw [ih]
      constructor
      · intro hk hc
        rcases hc with hc | hc
        · exact h hc.symm
        · exact hk hc
      · intro hk hc
        exact hk (Or.inr hc)

lemma alLookup_some_mem {β : Type} (t : List (PageId × β)) (k : PageId) (v : β)
    (h : alLookup t k = some v) : (k, v) ∈ t := by
  induction t with
  | nil => simp [alLookup] at h
  | cons e t ih =>
    by_cases he : e.1 = k
    · simp only [alLookup, if_pos he] at h
      injection h with hv
      obtain ⟨a, b⟩ := e
      replace he : a = k := he
      replace hv : b = v := hv
      subst he
      subst hv
      exact List.mem_cons_self _ _
    · simp only [alLookup, if_neg he] at h
      exact List.mem_cons_of_mem e (ih h)

lemma alLookup_of_mem_nodup {β : Type} (t : List (PageId × β)) (k : PageId) (v : β)
    (hnd : (t.map Prod.fst).Nodup) (hm : (k, v) ∈ t) : alLookup t k = some v := by
  induction t with
  | nil => simp at hm
  | cons e t ih =>
    rcases List.mem_cons.mp hm with he | ht
    · simp [alLookup, ← he]
    · have hk : k ∈ t.map Prod.fst := List.mem_map.mpr ⟨(k, v), ht, rfl⟩
      have hne : e.1 ≠ k := by
        intro hc
        exact (List.nodup_cons.mp (by simpa using hnd)).1 (hc ▸ hk)
      simp only [alLookup, hne, if_neg, if_false]
      exact ih (List.nodup_cons.mp (by simpa using hnd)).2 ht

lemma alErase_of_none {β : Type} (t : List (PageId × β)) (k : PageId)
    (h : alLookup t k = none) : alErase t k = t := by
  induction t with
  | nil => rfl
  | cons e t ih =>
    by_cases he : e.1 = k
    · simp [alLookup, he] at h
    · simp only [alLookup, he, if_neg, if_false] at h
      simp [alErase, he, ih h]

lemma alErase_decomp {β : Type} (t : List (PageId × β)) (k : PageId) (v : β)
    (h : alLookup t k = some v) :
    ∃ l1 l2, t = l1 ++ (k, v) :: l2 ∧ (∀ e ∈ l1, e.1 ≠ k) ∧ alErase t k = l1 ++ l2 := by
  induction t with
  | nil => simp [alLookup] at h
  | cons e t ih =>
    by_cases he : e.1 = k
    · simp only [alLookup, if_pos he] at h
      injection h with hv
      obtain ⟨a, b⟩ := e
      replace he : a = k := he
      replace hv : b = v := hv
      subst he
      subst hv
      exact ⟨[], t, by simp, by simp, by simp [alErase]⟩
    · simp only [alLookup, if_neg he] at h
      obtain ⟨l1, l2, ht, hk, herase⟩ := ih h
      exact ⟨e :: l1, l2, by simp [ht], by simpa [he] using hk, by simp [alErase, he, herase]⟩

lemma alInsert_not_mem {β : Type} (t : List (PageId × β)) (k : PageId) (v : β)
    (h : k ∉ t.map Prod.fst) : alInsert t k v = t ++ [(k, v)] := by
  induction t with
  | nil => rfl
  | cons e t ih =>
    simp only [List.map_cons, List.mem_cons] at h
    push_neg at h
    simp [alInsert, h.1, Ne.symm h.1, ih h.2]

lemma alLookup_insert_self {β : Type} (t : List (PageId × β)) (k : PageId) (v : β) :
    alLookup (alInsert t k v) k = some v := by
  induction t with
  | nil => simp [alInsert, alLookup]
  | cons e t ih =>
    by_cases he : e.1 = k <;> simp [alInsert, he, alLookup, ih]

lemma alLookup_insert_ne {β : Type} (t : List (PageId × β)) (k q : PageId) (v : β)
    (h : q ≠ k) : alLookup (alInsert t k v) q = alLookup t q := by
  induction t with
  | nil => simp [alInsert, alLookup, Ne.symm h]
  | cons e t ih =>
    by_cases he : e.1 = k
    · simp [alInsert, alLookup, he, Ne.symm h]
    · simp [alInsert, alLookup, he, ih]

lemma updateFrame_length (l : List Frame) (i : Nat) (g : Frame → Frame) :
    (updateFrame l i g).length = l.length := by
  induction l generalizing i with
  | nil => rfl
  | cons f t ih =>
    cases i with
    | zero => rfl
    | succ n => simp [updateFrame, ih]

lemma updateFrame_oob (l : List Frame) (i : Nat) (g : Frame → Frame)
    (h : l.length ≤ i) : updateFrame l i g = l := by
  induction l generalizing i with
  | nil => rfl
  | cons f t ih =>
    cases i with
    | zero => simp at h
    | succ n => simp only [updateFrame]; rw [ih n (by simpa using h)]

lemma updateFrame_getD_self (l : List Frame) (i : Nat) (g : Frame → Frame)
    (h : i < l.length) : (updateFrame l i g).getD i default = g (l.getD i default) := by
  induction l generalizing i with
  | nil => simp at h
  | cons f t ih =>
    cases i with
    | zero => simp [updateFrame]
    | succ n => simpa [updateFrame] using ih n (by simpa using h)

lemma updateFrame_getD_ne (l : List Frame) (i : Nat) (g : Frame → Frame) (j : Nat)
    (h : j ≠ i) : (updateFrame l i g).getD j default = l.getD j default := by
  induction l generalizing i j with
  | nil => rfl
  | cons f t ih =>
    cases i with
    | zero =>
      cases j with
      | zero => exact absurd rfl h
      | succ m => simp [updateFrame]
    | succ n =>
      cases j with
      | zero => simp [updateFrame]
      | succ m => simpa [updateFrame] using ih n m (by omega)

/-! ## Replacer lemmas -/

lemma victim_none_state (r : Replacer) (h : (r.victim).1 = none) : (r.victim).2 = r := by
  unfold Replacer.victim at h ⊢
  split at h
  · split
    · rfl
    · simp_all
  · simp at h

lemma victim_spec (r : Replacer) (hm : r.lru_map = r.lru_list) (hnd : r.lru_list.Nodup)
    (hne : r.lru_list ≠ []) :
    r.victim = (some (r.lru_list.getLastD 0),
      { r with lru_list := r.lru_list.dropLast, lru_map := r.lru_list.dropLast }) := by
  have h1 : r.lru_list.isEmpty = false := by simpa [List.isEmpty_iff] using hne
  have h2 : r.lru_map.isEmpty = false := by rw [hm]; exact h1
  unfold Replacer.victim
  rw [h1, h2]
  simp only [Bool.or_self, Bool.false_eq_true, if_false]
  rw [hm, erase_getLastD _ _ hnd hne]

lemma pin_capacity (r : Replacer) (f : Nat) : (r.pin f).capacity = r.capacity := by
  unfold Replacer.pin
  split <;> rfl

lemma unpin_capacity (r : Replacer) (f : Nat) : (r.unpin f).capacity = r.capacity := by
  unfold Replacer.unpin
  split <;> rfl

lemma pin_of_map_eq (r : Replacer) (f : Nat) (hm : r.lru_map = r.lru_list) :
    r.pin f = if f ∈ r.lru_list then
      { r with lru_list := r.lru_list.erase f, lru_map := r.lru_list.erase f }
    else r := by
  unfold Replacer.pin
  rw [hm]
  split
  · simp only [spliceToFront, List.tail_cons]
  · rfl

lemma unpin_inserts (r : Replacer) (f : Nat) (h1 : f ∉ r.lru_map)
    (h2 : r.lru_map.length ≠ r.capacity) :
    r.unpin f = { r with lru_list := f :: r.lru_list, lru_map := f :: r.lru_map } := by
  unfold Replacer.unpin
  rw [if_neg]
  push_neg
  exact ⟨h1, h2⟩

/-! ## C1: the dirty flag is overwritten, not OR-accumulated.

`UnpinPgImp` (source line 233) assigns `is_dirty_ = is_dirty` unconditionally,
so `UnpinPage(p, true)` followed by `UnpinPage(p, false)` (both succeeding,
with no intervening flush or eviction) leaves `is_dirty = false`, not true. -/

/-- C1: on the concrete run `NewPage; FetchPage 0` (page 0 resident, pin
count 2), `UnpinPage(0, true)` succeeds and sets the frame dirty, and the
following `UnpinPage(0, false)` also succeeds but clears the dirty flag —
the code overwrites the dirty bit where the claim demands an OR, so the
frame does not stay dirty. -/
theorem C1_unpin_overwrites_dirty :
    (unpinPage (run (mkBPMI 1 1 0) [Op.newP, Op.fetch 0]) 0 true).1 = true ∧
    (frameAt (unpinPage (run (mkBPMI 1 1 0) [Op.newP, Op.fetch 0]) 0 true).2 0).is_dirty = true ∧
    (unpinPage (unpinPage (run (mkBPMI 1 1 0) [Op.newP, Op.fetch 0]) 0 true).2 0 false).1 = true ∧
    (frameAt (unpinPage (unpinPage (run (mkBPMI 1 1 0) [Op.newP, Op.fetch 0]) 0 true).2 0 false).2 0).is_dirty = false := by
  decide

/-! ## C4: the LRU replacer -/

/-- C4 counterexample: with capacity 1 and the list full, `Unpin` of an
absent frame is a no-op rather than a front insertion, so the claim's
"Unpin ... otherwise inserts at the front" is false as stated. -/
theorem C4_counterexample :
    ((mkReplacer 1).unpin 0).unpin 1 = (mkReplacer 1).unpin 0 ∧
    (((mkReplacer 1).unpin 0).unpin 1).lru_list ≠ [1, 0] := by
  decide

/-- C4 (amended): `Victim` returns none iff the evictable list is empty and
otherwise removes and returns the back element; `Unpin` of an
already-present frame — or of any frame while the list is at capacity — is
a no-op, and otherwise inserts at the front; the concrete capacity-7
scenario behaves as claimed. -/
theorem C4_lru_replacer (r : Replacer) (f : Nat) :
    (r.lru_map = r.lru_list → ((r.victim).1 = none ↔ r.lru_list = [])) ∧
    (r.lru_map = r.lru_list → r.lru_list.Nodup → r.lru_list ≠ [] →
      r.victim = (some (r.lru_list.getLastD 0),
        { r with lru_list := r.lru_list.dropLast, lru_map := r.lru_list.dropLast })) ∧
    (f ∈ r.lru_map ∨ r.lru_map.length = r.capacity → r.unpin f = r) ∧
    (f ∉ r.lru_map → r.lru_map.length ≠ r.capacity →
      (r.unpin f).lru_list = f :: r.lru_list ∧ (r.unpin f).lru_map = f :: r.lru_map) ∧
    ((((((((mkReplacer 7).unpin 1).unpin 2).unpin 3).unpin 4).unpin 5).unpin 6).unpin 1 =
        ((((((mkReplacer 7).unpin 1).unpin 2).unpin 3).unpin 4).unpin 5).unpin 6 ∧
      (((((((mkReplacer 7).unpin 1).unpin 2).unpin 3).unpin 4).unpin 5).unpin 6).victim.1 = some 1 ∧
      ((((((((((mkReplacer 7).unpin 1).unpin 2).unpin 3).unpin 4).unpin 5).unpin 6).victim.2.pin 3).pin 4).victim).1 = some 2 ∧
      (((((((((((mkReplacer 7).unpin 1).unpin 2).unpin 3).unpin 4).unpin 5).unpin 6).victim.2.pin 3).pin 4).victim).2.victim).1 = some 5 ∧
      ((((((((((((mkReplacer 7).unpin 1).unpin 2).unpin 3).unpin 4).unpin 5).unpin 6).victim.2.pin 3).pin 4).victim).2.victim).2.victim).1 = some 6) := by
  refine ⟨?_, ?_, ?_, ?_, by decide⟩
  · intro hm
    by_cases h : r.lru_list = []
    · simp [Replacer.victim, h, hm]
    · have h1 : r.lru_list.isEmpty = false := by simpa [List.isEmpty_iff] using h
      have h2 : r.lru_map.isEmpty = false := by rw [hm]; exact h1
      simp [Replacer.victim, h1, h2, h]
  · intro hm hnd hne
    exact victim_spec r hm hnd hne
  · intro h
    unfold Replacer.unpin
    rw [if_pos h]
  · intro h1 h2
    rw [unpin_inserts r f h1 h2]
    exact ⟨rfl, rfl⟩

/-- C4 witness: instantiating the amended theorem at a concrete replacer:
`Victim` after a single `Unpin 5` on capacity 2 returns 5 and empties the
replacer, and a repeated `Unpin 5` is a no-op. -/
theorem C4_witness :
    ((mkReplacer 2).unpin 5).victim = (some 5, mkReplacer 2) ∧
    ((mkReplacer 2).unpin 5).unpin 5 = (mkReplacer 2).unpin 5 := by
  have h := C4_lru_replacer ((mkReplacer 2).unpin 5) 5
  constructor
  · exact (h.2.1 (by decide) (by decide) (by decide)).trans (by decide)
  · exact h.2.2.1 (by decide)

/-! ## C9: `Pin` via splice-to-front + pop_front refines direct node erase -/

lemma erase_eq_eraseIdx_of_getD (l : List Nat) (i : Nat) (f : Nat) (hnd : l.Nodup)
    (hi : i < l.length) (hf : l.getD i 0 = f) : l.erase f = l.eraseIdx i := by
  induction l generalizing i with
  | nil => simp at hi
  | cons a t ih =>
    cases i with
    | zero =>
      simp only [List.getD_cons_zero] at hf
      subst hf
      simp
    | succ n =>
      simp only [List.getD_cons_succ] at hf
      have hn : n < t.length := by simpa using hi
      have hft : f ∈ t := by
        subst hf
        rw [List.getD_eq_getElem t 0 hn]
        exact List.getElem_mem hn
      have hna : a ∉ t := (List.nodup_cons.mp hnd).1
      have hne : ¬((a : Nat) == f) = true := by
        simp only [beq_iff_eq]
        exact fun he => hna (he ▸ hft)
      rw [List.erase_cons_tail hne, List.eraseIdx_cons_succ,
        ih n (List.nodup_cons.mp hnd).2 hn hf]

/-- C9: on every replacer state whose map keys are exactly the listed frames
(each key naming its own node, i.e. the unique occurrence of that frame in
the list), `Pin f` as implemented — splice `f`'s node to the front, then
`pop_front`, then erase the map key — produces exactly the state obtained
by erasing `f`'s node from the list and `f` from the map directly. -/
theorem C9_pin_splice_refines_erase (r : Replacer) (i : Nat) (f : Nat)
    (hm : ∀ g, g ∈ r.lru_map ↔ g ∈ r.lru_list) (hnd : r.lru_list.Nodup)
    (hi : i < r.lru_list.length) (hf : r.lru_list.getD i 0 = f) :
    Replacer.pin r f = { r with lru_list := r.lru_list.eraseIdx i,
                                lru_map := r.lru_map.erase f } := by
  have hfl : f ∈ r.lru_list := by
    subst hf
    rw [List.getD_eq_getElem _ 0 hi]
    exact List.getElem_mem hi
  have hfm : f ∈ r.lru_map := (hm f).mpr hfl
  unfold Replacer.pin
  rw [if_pos hfm]
  simp only [spliceToFront, List.tail_cons]
  rw [erase_eq_eraseIdx_of_getD _ i f hnd hi hf]

/-- C9 witness: the splice-based `Pin` on the concrete state with list
`[3, 5, 7]` (node of 5 at index 1) equals the direct erase of that node. -/
theorem C9_witness :
    Replacer.pin { lru_list := [3, 5, 7], lru_map := [3, 5, 7], capacity := 3 } 5 =
      { lru_list := [3, 7], lru_map := [3, 7], capacity := 3 } := by
  have h := C9_pin_splice_refines_erase
    { lru_list := [3, 5, 7], lru_map := [3, 5, 7], capacity := 3 } 1 5
    (fun g => Iff.rfl) (by decide) (by decide) (by decide)
  exact h.trans (by decide)

/-! ## Computation lemmas for the BPMI operations -/

lemma diskRead_write_self (d : List (PageId × Nat)) (k : PageId) (v : Nat) :
    diskRead (diskWrite d k v) k = v := by
  simp [diskRead, diskWrite, alLookup_insert_self]

lemma getVictim_free (s : BPMI) (a : Nat) (t : List Nat) (hf : s.free_list = a :: t) :
    getVictimFrame s = (some a, { s with free_list := t }, false) := by
  unfold getVictimFrame
  rw [hf]

lemma getVictim_allpinned (s : BPMI) (hf : s.free_list = [])
    (hp : s.pages.all (fun p => p.pin_count != 0) = true) :
    getVictimFrame s = (none, s, false) := by
  unfold getVictimFrame
  rw [hf, if_pos hp]

lemma getVictim_replacer_none (s : BPMI) (hf : s.free_list = [])
    (hp : ¬ s.pages.all (fun p => p.pin_count != 0) = true)
    (hv : s.replacer.victim = (none, s.replacer)) :
    getVictimFrame s = (none, s, true) := by
  obtain ⟨ps, ni, ii, np, pgs, pt, fl, rp, dk⟩ := s
  replace hf : fl = [] := hf
  subst hf
  unfold getVictimFrame
  dsimp only at hp hv ⊢
  rw [if_neg hp, hv]

lemma getVictim_replacer_some (s : BPMI) (fid : Nat) (r1 : Replacer) (hf : s.free_list = [])
    (hp : ¬ s.pages.all (fun p => p.pin_count != 0) = true)
    (hv : s.replacer.victim = (some fid, r1)) :
    getVictimFrame s =
      (some fid,
       { s with
          replacer := r1
          disk := if (s.pages.getD fid default).is_dirty
                  then diskWrite s.disk (s.pages.getD fid default).page_id (s.pages.getD fid default).data
                  else s.disk
          page_table := alErase s.page_table (s.pages.getD fid default).page_id },
       true) := by
  unfold getVictimFrame
  rw [hf, if_neg hp, hv]
  dsimp only
  split <;> rfl

lemma getVictim_none_state (s : BPMI) (h : (getVictimFrame s).1 = none) :
    (getVictimFrame s).2.1 = s := by
  cases hf : s.free_list with
  | cons a t =>
    rw [getVictim_free s a t hf] at h
    simp at h
  | nil =>
    by_cases hp : s.pages.all (fun p => p.pin_count != 0) = true
    · rw [getVictim_allpinned s hf hp]
    · rcases hv : s.replacer.victim with ⟨o, r1⟩
      cases o with
      | none =>
        have hr : r1 = s.replacer := by
          have hh := victim_none_state s.replacer (by rw [hv])
          rw [hv] at hh
          exact hh
        subst hr
        rw [getVictim_replacer_none s hf hp hv]
      | some fid =>
        rw [getVictim_replacer_some s fid r1 hf hp hv] at h
        simp at h

lemma newPage_of_fail (s : BPMI) (s1 : BPMI) (c : Bool)
    (hg : getVictimFrame (allocatePage s).2 = (none, s1, c)) :
    newPage s = (none, s1) := by
  unfold newPage
  rw [hg]

lemma newPage_of_acquire (s : BPMI) (fid : Nat) (s1 : BPMI) (c : Bool)
    (hg : getVictimFrame (allocatePage s).2 = (some fid, s1, c)) :
    newPage s = (some (s.next_page_id, fid), bindFrame s1 s.next_page_id fid 0) := by
  unfold newPage
  rw [hg]
  rfl

lemma fetchPage_hit (s : BPMI) (pid : PageId) (fid : Nat)
    (h : alLookup s.page_table pid = some fid) :
    fetchPage s pid = (some fid,
      { s with
        pages := updateFrame s.pages fid (fun f => { f with pin_count := f.pin_count + 1 })
        replacer := s.replacer.pin fid }) := by
  unfold fetchPage
  rw [h]

lemma fetchPage_miss_fail (s : BPMI) (pid : PageId) (s1 : BPMI) (c : Bool)
    (h : alLookup s.page_table pid = none)
    (hg : getVictimFrame s = (none, s1, c)) :
    fetchPage s pid = (none, s1) := by
  unfold fetchPage
  rw [h, hg]

lemma fetchPage_miss_acquire (s : BPMI) (pid : PageId) (fid : Nat) (s1 : BPMI) (c : Bool)
    (h : alLookup s.page_table pid = none)
    (hg : getVictimFrame s = (some fid, s1, c)) :
    fetchPage s pid = (some fid, bindFrame s1 pid fid (diskRead s1.disk pid)) := by
  unfold fetchPage
  rw [h, hg]

lemma unpinPage_absent (s : BPMI) (pid : PageId) (d : Bool)
    (h : alLookup s.page_table pid = none) :
    unpinPage s pid d = (false, s) := by
  unfold unpinPage
  rw [h]

lemma flushPage_absent (s : BPMI) (pid : PageId)
    (h : alLookup s.page_table pid = none) :
    flushPage s pid = (false, s) := by
  unfold flushPage
  rw [h]

lemma flushPage_resident (s : BPMI) (pid : PageId) (fid : Nat)
    (h : alLookup s.page_table pid = some fid) :
    flushPage s pid = (true,
      { s with
        disk := diskWrite s.disk (s.pages.getD fid default).page_id (s.pages.getD fid default).data
        pages := updateFrame s.pages fid (fun f => { f with is_dirty := false }) }) := by
  unfold flushPage
  rw [h]

lemma deletePage_absent (s : BPMI) (pid : PageId)
    (h : alLookup s.page_table pid = none) :
    deletePage s pid = (true, s) := by
  unfold deletePage
  rw [h]

lemma deletePage_pinned (s : BPMI) (pid : PageId) (fid : Nat)
    (h : alLookup s.page_table pid = some fid)
    (hpin : (s.pages.getD fid default).pin_count ≠ 0) :
    deletePage s pid = (false, s) := by
  unfold deletePage
  rw [h]
  dsimp only
  rw [if_pos hpin]

lemma deletePage_resident (s : BPMI) (pid : PageId) (fid : Nat)
    (h : alLookup s.page_table pid = some fid)
    (hpin : ¬ (s.pages.getD fid default).pin_count ≠ 0) :
    deletePage s pid = (true,
      { s with
        disk := if (s.pages.getD fid default).is_dirty
                then diskWrite s.disk (s.pages.getD fid default).page_id (s.pages.getD fid default).data
                else s.disk
        pages := updateFrame s.pages fid
          (fun f => { f with page_id := INVALID_PAGE_ID, is_dirty := false, data := 0 })
        free_list := s.free_list ++ [fid]
        page_table := alErase s.page_table pid }) := by
  unfold deletePage
  rw [h]
  dsimp only
  rw [if_neg hpin]
  split <;> rfl

lemma updateFrame_comp (l : List Frame) (i : Nat) (g1 g2 : Frame → Frame) :
    updateFrame (updateFrame l i g1) i g2 = updateFrame l i (fun f => g2 (g1 f)) := by
  induction l generalizing i with
  | nil => rfl
  | cons f t ih =>
    cases i with
    | zero => rfl
    | succ n => simp [updateFrame, ih]

lemma updateFrame_getD_keep {α : Type} (l : List Frame) (i j : Nat) (g : Frame → Frame)
    (P : Frame → α) (hg : ∀ f, P (g f) = P f) :
    P ((updateFrame l i g).getD j default) = P (l.getD j default) := by
  by_cases he : j = i
  · subst he
    by_cases hr : j < l.length
    · rw [updateFrame_getD_self _ _ _ hr, hg]
    · rw [updateFrame_oob _ _ _ (le_of_not_lt hr)]
  · rw [updateFrame_getD_ne _ _ _ _ he]

lemma unpinPage_failzero (s : BPMI) (pid : PageId) (fid : Nat) (d : Bool)
    (h : alLookup s.page_table pid = some fid)
    (hpin : (s.pages.getD fid default).pin_count = 0) :
    unpinPage s pid d =
      (false, { s with pages := updateFrame s.pages fid (fun f => { f with is_dirty := d }) }) := by
  unfold unpinPage
  rw [h]
  dsimp only
  have hc : ((updateFrame s.pages fid (fun f => { f with is_dirty := d })).getD fid default).pin_count = 0 := by
    rw [updateFrame_getD_keep s.pages fid fid (fun f => { f with is_dirty := d })
      Frame.pin_count (fun f => rfl)]
    exact hpin
  rw [if_pos hc]

lemma unpinPage_success (s : BPMI) (pid : PageId) (fid : Nat) (d : Bool)
    (h : alLookup s.page_table pid = some fid)
    (hpin : (s.pages.getD fid default).pin_count ≠ 0) :
    unpinPage s pid d = (true,
      if ((updateFrame (updateFrame s.pages fid (fun f => { f with is_dirty := d })) fid
            (fun f => { f with pin_count := f.pin_count - 1 })).getD fid default).pin_count = 0
      then { s with
              pages := updateFrame (updateFrame s.pages fid (fun f => { f with is_dirty := d })) fid
                (fun f => { f with pin_count := f.pin_count - 1 })
              replacer := s.replacer.unpin fid }
      else { s with
              pages := updateFrame (updateFrame s.pages fid (fun f => { f with is_dirty := d })) fid
                (fun f => { f with pin_count := f.pin_count - 1 }) }) := by
  unfold unpinPage
  rw [h]
  dsimp only
  have hc : ¬ ((updateFrame s.pages fid (fun f => { f with is_dirty := d })).getD fid default).pin_count = 0 := by
    rw [updateFrame_getD_keep s.pages fid fid (fun f => { f with is_dirty := d })
      Frame.pin_count (fun f => rfl)]
    exact hpin
  rw [if_neg hc]

/-! ## C7: FlushPage -/

/-- C7: `FlushPage(p)` returns false iff `p` is not in the page table; on
success it writes the frame's data to disk (readable back at the frame's
page id), clears `is_dirty`, and changes nothing else — the frame's
`pin_count` and `page_id`, all other frames, the page table, the free list,
the replacer, and the allocation counter are unchanged. -/
theorem C7_flush_page (s : BPMI) (pid : PageId) :
    ((flushPage s pid).1 = false ↔ alLookup s.page_table pid = none) ∧
    (∀ fid, alLookup s.page_table pid = some fid →
      (flushPage s pid).1 = true ∧
      (flushPage s pid).2.disk = diskWrite s.disk (frameAt s fid).page_id (frameAt s fid).data ∧
      diskRead (flushPage s pid).2.disk (frameAt s fid).page_id = (frameAt s fid).data ∧
      (frameAt (flushPage s pid).2 fid).is_dirty = false ∧
      (frameAt (flushPage s pid).2 fid).pin_count = (frameAt s fid).pin_count ∧
      (frameAt (flushPage s pid).2 fid).page_id = (frameAt s fid).page_id ∧
      (∀ j, j ≠ fid → frameAt (flushPage s pid).2 j = frameAt s j) ∧
      (flushPage s pid).2.page_table = s.page_table ∧
      (flushPage s pid).2.free_list = s.free_list ∧
      (flushPage s pid).2.replacer = s.replacer ∧
      (flushPage s pid).2.next_page_id = s.next_page_id) := by
  constructor
  · cases h : alLookup s.page_table pid with
    | none => rw [flushPage_absent s pid h]; simp
    | some fid => rw [flushPage_resident s pid fid h]; simp
  · intro fid h
    rw [flushPage_resident s pid fid h]
    refine ⟨rfl, rfl, diskRead_write_self _ _ _, ?_, ?_, ?_, ?_, rfl, rfl, rfl, rfl⟩
    · show ((updateFrame s.pages fid _).getD fid default).is_dirty = false
      by_cases hr : fid < s.pages.length
      · rw [updateFrame_getD_self _ _ _ hr]
      · rw [updateFrame_oob _ _ _ (le_of_not_lt hr),
          List.getD_eq_default _ _ (le_of_not_lt hr)]
        rfl
    · exact updateFrame_getD_keep s.pages fid fid (fun f => { f with is_dirty := false })
        Frame.pin_count (fun f => rfl)
    · exact updateFrame_getD_keep s.pages fid fid (fun f => { f with is_dirty := false })
        Frame.page_id (fun f => rfl)
    · intro j hj
      show (updateFrame s.pages fid _).getD j default = s.pages.getD j default
      exact updateFrame_getD_ne _ _ _ _ hj

/-- C7 witness: after `NewPage` on a fresh pool, page 0 is resident in frame
0; flushing it succeeds, clears the dirty bit, and leaves the pin count at 1. -/
theorem C7_witness :
    alLookup (run (mkBPMI 1 1 0) [Op.newP]).page_table 0 = some 0 ∧
    (flushPage (run (mkBPMI 1 1 0) [Op.newP]) 0).1 = true ∧
    (frameAt (flushPage (run (mkBPMI 1 1 0) [Op.newP]) 0).2 0).pin_count =
      (frameAt (run (mkBPMI 1 1 0) [Op.newP]) 0).pin_count := by
  have h := (C7_flush_page (run (mkBPMI 1 1 0) [Op.newP]) 0).2 0 (by decide)
  exact ⟨by decide, h.1, h.2.2.2.2.1⟩

/-! ## C6: DeletePage -/

/-- C6: `DeletePage(p)` returns true when `p` is absent (leaving the state
unchanged); returns false and changes nothing when the resident frame is
pinned; and otherwise writes the frame back iff it is dirty, resets the
frame to `page_id = INVALID`, `is_dirty = false`, zeroed data, appends the
frame id to the free list, erases `p` from the page table, and returns
true. -/
theorem C6_delete_page (s : BPMI) (pid : PageId) :
    (alLookup s.page_table pid = none → deletePage s pid = (true, s)) ∧
    (∀ fid, alLookup s.page_table pid = some fid →
      ((frameAt s fid).pin_count ≠ 0 → deletePage s pid = (false, s)) ∧
      ((frameAt s fid).pin_count = 0 →
        (deletePage s pid).1 = true ∧
        (deletePage s pid).2.disk =
          (if (frameAt s fid).is_dirty then
            diskWrite s.disk (frameAt s fid).page_id (frameAt s fid).data else s.disk) ∧
        frameAt (deletePage s pid).2 fid =
          { page_id := INVALID_PAGE_ID, pin_count := 0, is_dirty := false, data := 0 } ∧
        (∀ j, j ≠ fid → frameAt (deletePage s pid).2 j = frameAt s j) ∧
        (deletePage s pid).2.free_list = s.free_list ++ [fid] ∧
        (deletePage s pid).2.page_table = alErase s.page_table pid ∧
        (deletePage s pid).2.replacer = s.replacer ∧
        (deletePage s pid).2.next_page_id = s.next_page_id)) := by
  refine ⟨fun h => deletePage_absent s pid h, fun fid h => ⟨fun hpin => ?_, fun hpin => ?_⟩⟩
  · exact deletePage_pinned s pid fid h hpin
  · rw [deletePage_resident s pid fid h (fun hc => hc hpin)]
    refine ⟨rfl, rfl, ?_, ?_, rfl, rfl, rfl, rfl⟩
    · show (updateFrame s.pages fid _).getD fid default = _
      by_cases hr : fid < s.pages.length
      · rw [updateFrame_getD_self _ _ _ hr]
        have h0 : (s.pages.getD fid default).pin_count = 0 := hpin
        rw [h0]
      · rw [updateFrame_oob _ _ _ (le_of_not_lt hr)]
        rw [List.getD_eq_default _ _ (le_of_not_lt hr)]
        rfl
    · intro j hj
      show (updateFrame s.pages fid _).getD j default = s.pages.getD j default
      exact updateFrame_getD_ne _ _ _ _ hj

/-- C6 witness: on the state with page 0 resident and pinned (after
`NewPage`), delete is refused; after `UnpinPage(0, false)` delete succeeds,
returns frame 0 to the free list and erases the entry. -/
theorem C6_witness :
    deletePage (run (mkBPMI 1 1 0) [Op.newP]) 0 = (false, run (mkBPMI 1 1 0) [Op.newP]) ∧
    (deletePage (run (mkBPMI 1 1 0) [Op.newP, Op.unpin 0 false]) 0).1 = true ∧
    (deletePage (run (mkBPMI 1 1 0) [Op.newP, Op.unpin 0 false]) 0).2.free_list =
      (run (mkBPMI 1 1 0) [Op.newP, Op.unpin 0 false]).free_list ++ [0] := by
  refine ⟨?_, ?_, ?_⟩
  · exact ((C6_delete_page (run (mkBPMI 1 1 0) [Op.newP]) 0).2 0 (by decide)).1 (by decide)
  · exact (((C6_delete_page (run (mkBPMI 1 1 0) [Op.newP, Op.unpin 0 false]) 0).2 0
      (by decide)).2 (by decide)).1
  · exact (((C6_delete_page (run (mkBPMI 1 1 0) [Op.newP, Op.unpin 0 false]) 0).2 0
      (by decide)).2 (by decide)).2.2.2.2.1

/-! ## C10: a failed NewPage still consumes the allocated page id -/

/-- C10: whenever `NewPage` fails (returns none), the resulting state is the
original state with `next_page_id` advanced by `num_instances` — the fresh
page id is consumed and never reused — and the page table, free list,
frames, replacer and disk are all unchanged. -/
theorem C10_newpage_failure (s : BPMI) (h : (newPage s).1 = none) :
    (newPage s).2 = { s with next_page_id := s.next_page_id + s.num_instances } := by
  rcases hg : getVictimFrame (allocatePage s).2 with ⟨o, s1, c⟩
  cases o with
  | some fid =>
    rw [newPage_of_acquire s fid s1 c hg] at h
    simp at h
  | none =>
    rw [newPage_of_fail s s1 c hg]
    have h3 := getVictim_none_state (allocatePage s).2 (by rw [hg])
    rw [hg] at h3
    exact h3

/-- C10 witness: on a pool of size 1 whose only frame is pinned, `NewPage`
fails yet advances `next_page_id` from 1 to 2 and changes nothing else. -/
theorem C10_witness :
    (newPage (run (mkBPMI 1 1 0) [Op.newP])).1 = none ∧
    (newPage (run (mkBPMI 1 1 0) [Op.newP])).2 =
      { run (mkBPMI 1 1 0) [Op.newP] with
        next_page_id := (run (mkBPMI 1 1 0) [Op.newP]).next_page_id +
          (run (mkBPMI 1 1 0) [Op.newP]).num_instances } :=
  ⟨by decide, C10_newpage_failure (run (mkBPMI 1 1 0) [Op.newP]) (by decide)⟩

/-! ## C3: the victim-acquisition discipline -/

/-- C3: whenever `NewPage` or a missing `FetchPage` must obtain a frame:
with a non-empty free list the front free frame is taken and the replacer
is not consulted; with an empty free list and every frame pinned the
acquisition fails with nothing consulted or changed; otherwise the replacer
is consulted and its answer is final — its victim is accepted, and if it
declines the operation fails.  The last two conjuncts tie `NewPage` and the
`FetchPage` miss path to this discipline: each returns none exactly when
the acquisition fails. -/
theorem C3_victim_discipline (s : BPMI) :
    (∀ fid rest, s.free_list = fid :: rest →
      getVictimFrame s = (some fid, { s with free_list := rest }, false)) ∧
    (s.free_list = [] → (∀ f ∈ s.pages, f.pin_count ≠ 0) →
      getVictimFrame s = (none, s, false)) ∧
    (s.free_list = [] → ¬ (∀ f ∈ s.pages, f.pin_count ≠ 0) →
      ((getVictimFrame s).2.2 = true ∧
       ((s.replacer.victim).1 = none → (getVictimFrame s).1 = none) ∧
       (∀ fid, (s.replacer.victim).1 = some fid → (getVictimFrame s).1 = some fid))) ∧
    ((newPage s).1 = none ↔ (getVictimFrame (allocatePage s).2).1 = none) ∧
    (∀ pid, alLookup s.page_table pid = none →
      ((fetchPage s pid).1 = none ↔ (getVictimFrame s).1 = none)) := by
  have hall : ∀ (u : BPMI), (∀ f ∈ u.pages, f.pin_count ≠ 0) ↔
      u.pages.all (fun p => p.pin_count != 0) = true := by
    intro u
    rw [List.all_eq_true]
    constructor
    · intro hh f hf
      simpa using hh f hf
    · intro hh f hf
      simpa using hh f hf
  refine ⟨fun fid rest hf => getVictim_free s fid rest hf, ?_, ?_, ?_, ?_⟩
  · intro hf hp
    exact getVictim_allpinned s hf ((hall s).mp hp)
  · intro hf hp
    have hp2 : ¬ s.pages.all (fun p => p.pin_count != 0) = true := fun hc => hp ((hall s).mpr hc)
    rcases hv : s.replacer.victim with ⟨o, r1⟩
    cases o with
    | none =>
      have hr : r1 = s.replacer := by
        have hh := victim_none_state s.replacer (by rw [hv])
        rw [hv] at hh
        exact hh
      subst hr
      rw [getVictim_replacer_none s hf hp2 hv]
      exact ⟨rfl, fun _ => rfl, fun fid hfid => by simp at hfid⟩
    | some fid =>
      rw [getVictim_replacer_some s fid r1 hf hp2 hv]
      exact ⟨rfl, fun hc => by simp at hc, fun fid2 hfid => by simpa using hfid⟩
  · rcases hg : getVictimFrame (allocatePage s).2 with ⟨o, s1, c⟩
    cases o with
    | some fid =>
      rw [newPage_of_acquire s fid s1 c hg]
      simp
    | none =>
      rw [newPage_of_fail s s1 c hg]
      simp
  · intro pid h
    rcases hg : getVictimFrame s with ⟨o, s1, c⟩
    cases o with
    | some fid =>
      rw [fetchPage_miss_acquire s pid fid s1 c h hg]
    | none =>
      rw [fetchPage_miss_fail s pid s1 c h hg]

/-- C3 witness: on the fresh pool of size 1 the free list's front frame 0 is
taken without consulting the replacer, and after that frame is pinned the
acquisition fails with the state untouched. -/
theorem C3_witness :
    getVictimFrame (mkBPMI 1 1 0) = (some 0, { mkBPMI 1 1 0 with free_list := [] }, false) ∧
    getVictimFrame (run (mkBPMI 1 1 0) [Op.newP]) = (none, run (mkBPMI 1 1 0) [Op.newP], false) := by
  refine ⟨?_, ?_⟩
  · exact (C3_victim_discipline (mkBPMI 1 1 0)).1 0 [] (by decide)
  · exact (C3_victim_discipline (run (mkBPMI 1 1 0) [Op.newP])).2.1 (by decide) (by decide)

/-! ## C5: allocator striping -/

lemma getVictim_proj (s : BPMI) :
    (getVictimFrame s).2.1.pool_size = s.pool_size ∧
    (getVictimFrame s).2.1.num_instances = s.num_instances ∧
    (getVictimFrame s).2.1.instance_index = s.instance_index ∧
    (getVictimFrame s).2.1.next_page_id = s.next_page_id ∧
    (getVictimFrame s).2.1.pages = s.pages := by
  cases hf : s.free_list with
  | cons a t =>
    rw [getVictim_free s a t hf]
    exact ⟨rfl, rfl, rfl, rfl, rfl⟩
  | nil =>
    by_cases hp : s.pages.all (fun p => p.pin_count != 0) = true
    · rw [getVictim_allpinned s hf hp]
      exact ⟨rfl, rfl, rfl, rfl, rfl⟩
    · rcases hv : s.replacer.victim with ⟨o, r1⟩
      cases o with
      | none =>
        have hr : r1 = s.replacer := by
          have hh := victim_none_state s.replacer (by rw [hv])
          rw [hv] at hh
          exact hh
        subst hr
        rw [getVictim_replacer_none s hf hp hv]
        exact ⟨rfl, rfl, rfl, rfl, rfl⟩
      | some fid =>
        rw [getVictim_replacer_some s fid r1 hf hp hv]
        exact ⟨rfl, rfl, rfl, rfl, rfl⟩

lemma newPage_proj (s : BPMI) :
    (newPage s).2.pool_size = s.pool_size ∧
    (newPage s).2.num_instances = s.num_instances ∧
    (newPage s).2.instance_index = s.instance_index ∧
    (newPage s).2.next_page_id = s.next_page_id + s.num_instances := by
  have ha := getVictim_proj (allocatePage s).2
  rcases hg : getVictimFrame (allocatePage s).2 with ⟨o, s1, c⟩
  rw [hg] at ha
  cases o with
  | none =>
    rw [newPage_of_fail s s1 c hg]
    exact ⟨ha.1, ha.2.1, ha.2.2.1, ha.2.2.2.1⟩
  | some fid =>
    rw [newPage_of_acquire s fid s1 c hg]
    exact ⟨ha.1, ha.2.1, ha.2.2.1, ha.2.2.2.1⟩

lemma newPage_some_pid (s : BPMI) (pr : PageId × Nat) (h : (newPage s).1 = some pr) :
    pr.1 = s.next_page_id := by
  rcases hg : getVictimFrame (allocatePage s).2 with ⟨o, s1, c⟩
  cases o with
  | none =>
    rw [newPage_of_fail s s1 c hg] at h
    simp at h
  | some fid =>
    rw [newPage_of_acquire s fid s1 c hg] at h
    simp at h
    subst h
    rfl

lemma fetchPage_proj (s : BPMI) (pid : PageId) :
    (fetchPage s pid).2.pool_size = s.pool_size ∧
    (fetchPage s pid).2.num_instances = s.num_instances ∧
    (fetchPage s pid).2.instance_index = s.instance_index ∧
    (fetchPage s pid).2.next_page_id = s.next_page_id := by
  cases h : alLookup s.page_table pid with
  | some fid =>
    rw [fetchPage_hit s pid fid h]
    exact ⟨rfl, rfl, rfl, rfl⟩
  | none =>
    have ha := getVictim_proj s
    rcases hg : getVictimFrame s with ⟨o, s1, c⟩
    rw [hg] at ha
    cases o with
    | none =>
      rw [fetchPage_miss_fail s pid s1 c h hg]
      exact ⟨ha.1, ha.2.1, ha.2.2.1, ha.2.2.2.1⟩
    | some fid =>
      rw [fetchPage_miss_acquire s pid fid s1 c h hg]
      exact ⟨ha.1, ha.2.1, ha.2.2.1, ha.2.2.2.1⟩

lemma unpinPage_proj (s : BPMI) (pid : PageId) (d : Bool) :
    (unpinPage s pid d).2.pool_size = s.pool_size ∧
    (unpinPage s pid d).2.num_instances = s.num_instances ∧
    (unpinPage s pid d).2.instance_index = s.instance_index ∧
    (unpinPage s pid d).2.next_page_id = s.next_page_id ∧
    (unpinPage s pid d).2.page_table = s.page_table ∧
    (unpinPage s pid d).2.free_list = s.free_list := by
  cases h : alLookup s.page_table pid with
  | none =>
    rw [unpinPage_absent s pid d h]
    exact ⟨rfl, rfl, rfl, rfl, rfl, rfl⟩
  | some fid =>
    by_cases hpin : (s.pages.getD fid default).pin_count = 0
    · rw [unpinPage_failzero s pid fid d h hpin]
      exact ⟨rfl, rfl, rfl, rfl, rfl, rfl⟩
    · rw [unpinPage_success s pid fid d h hpin]
      dsimp only
      split
      · exact ⟨rfl, rfl, rfl, rfl, rfl, rfl⟩
      · exact ⟨rfl, rfl, rfl, rfl, rfl, rfl⟩

lemma flushPage_proj (s : BPMI) (pid : PageId) :
    (flushPage s pid).2.pool_size = s.pool_size ∧
    (flushPage s pid).2.num_instances = s.num_instances ∧
    (flushPage s pid).2.instance_index = s.instance_index ∧
    (flushPage s pid).2.next_page_id = s.next_page_id := by
  cases h : alLookup s.page_table pid with
  | none =>
    rw [flushPage_absent s pid h]
    exact ⟨rfl, rfl, rfl, rfl⟩
  | some fid =>
    rw [flushPage_resident s pid fid h]
    exact ⟨rfl, rfl, rfl, rfl⟩

lemma deletePage_proj (s : BPMI) (pid : PageId) :
    (deletePage s pid).2.pool_size = s.pool_size ∧
    (deletePage s pid).2.num_instances = s.num_instances ∧
    (deletePage s pid).2.instance_index = s.instance_index ∧
    (deletePage s pid).2.next_page_id = s.next_page_id := by
  cases h : alLookup s.page_table pid with
  | none =>
    rw [deletePage_absent s pid h]
    exact ⟨rfl, rfl, rfl, rfl⟩
  | some fid =>
    by_cases hpin : (s.pages.getD fid default).pin_count ≠ 0
    · rw [deletePage_pinned s pid fid h hpin]
      exact ⟨rfl, rfl, rfl, rfl⟩
    · rw [deletePage_resident s pid fid h hpin]
      exact ⟨rfl, rfl, rfl, rfl⟩

lemma foldl_flushEntry_proj (entries : List (PageId × Nat)) (acc : BPMI) :
    (entries.foldl flushEntry acc).pool_size = acc.pool_size ∧
    (entries.foldl flushEntry acc).num_instances = acc.num_instances ∧
    (entries.foldl flushEntry acc).instance_index = acc.instance_index ∧
    (entries.foldl flushEntry acc).next_page_id = acc.next_page_id ∧
    (entries.foldl flushEntry acc).page_table = acc.page_table ∧
    (entries.foldl flushEntry acc).free_list = acc.free_list ∧
    (entries.foldl flushEntry acc).replacer = acc.replacer ∧
    (entries.foldl flushEntry acc).pages.length = acc.pages.length ∧
    (∀ j, ((entries.foldl flushEntry acc).pages.getD j default).page_id =
        (acc.pages.getD j default).page_id) ∧
    (∀ j, ((entries.foldl flushEntry acc).pages.getD j default).pin_count =
        (acc.pages.getD j default).pin_count) := by
  induction entries generalizing acc with
  | nil => exact ⟨rfl, rfl, rfl, rfl, rfl, rfl, rfl, rfl, fun _ => rfl, fun _ => rfl⟩
  | cons e t ih =>
    have hstep : (flushEntry acc e).pool_size = acc.pool_size ∧
        (flushEntry acc e).num_instances = acc.num_instances ∧
        (flushEntry acc e).instance_index = acc.instance_index ∧
        (flushEntry acc e).next_page_id = acc.next_page_id ∧
        (flushEntry acc e).page_table = acc.page_table ∧
        (flushEntry acc e).free_list = acc.free_list ∧
        (flushEntry acc e).replacer = acc.replacer ∧
        (flushEntry acc e).pages.length = acc.pages.length ∧
        (∀ j, ((flushEntry acc e).pages.getD j default).page_id =
            (acc.pages.getD j default).page_id) ∧
        (∀ j, ((flushEntry acc e).pages.getD j default).pin_count =
            (acc.pages.getD j default).pin_count) := by
      refine ⟨rfl, rfl, rfl, rfl, rfl, rfl, rfl, updateFrame_length _ _ _, ?_, ?_⟩
      · intro j
        exact updateFrame_getD_keep acc.pages e.2 j (fun f => { f with is_dirty := false })
          Frame.page_id (fun f => rfl)
      · intro j
        exact updateFrame_getD_keep acc.pages e.2 j (fun f => { f with is_dirty := false })
          Frame.pin_count (fun f => rfl)
    have hr := ih (flushEntry acc e)
    simp only [List.foldl_cons]
    exact ⟨hr.1.trans hstep.1, hr.2.1.trans hstep.2.1, hr.2.2.1.trans hstep.2.2.1,
      hr.2.2.2.1.trans hstep.2.2.2.1, hr.2.2.2.2.1.trans hstep.2.2.2.2.1,
      hr.2.2.2.2.2.1.trans hstep.2.2.2.2.2.1, hr.2.2.2.2.2.2.1.trans hstep.2.2.2.2.2.2.1,
      hr.2.2.2.2.2.2.2.1.trans hstep.2.2.2.2.2.2.2.1,
      fun j => (hr.2.2.2.2.2.2.2.2.1 j).trans (hstep.2.2.2.2.2.2.2.2.1 j),
      fun j => (hr.2.2.2.2.2.2.2.2.2 j).trans (hstep.2.2.2.2.2.2.2.2.2 j)⟩

lemma stepOp_static_next (s : BPMI) (op : Op) :
    (stepOp s op).pool_size = s.pool_size ∧
    (stepOp s op).num_instances = s.num_instances ∧
    (stepOp s op).instance_index = s.instance_index ∧
    ((stepOp s op).next_page_id = s.next_page_id ∨
     (stepOp s op).next_page_id = s.next_page_id + s.num_instances) := by
  cases op with
  | newP =>
    have h := newPage_proj s
    exact ⟨h.1, h.2.1, h.2.2.1, Or.inr h.2.2.2⟩
  | fetch pid =>
    have h := fetchPage_proj s pid
    exact ⟨h.1, h.2.1, h.2.2.1, Or.inl h.2.2.2⟩
  | unpin pid d =>
    have h := unpinPage_proj s pid d
    exact ⟨h.1, h.2.1, h.2.2.1, Or.inl h.2.2.2.1⟩
  | flush pid =>
    have h := flushPage_proj s pid
    exact ⟨h.1, h.2.1, h.2.2.1, Or.inl h.2.2.2⟩
  | flushAll =>
    have h := foldl_flushEntry_proj s.page_table s
    exact ⟨h.1, h.2.1, h.2.2.1, Or.inl h.2.2.2.1⟩
  | delete pid =>
    have h := deletePage_proj s pid
    exact ⟨h.1, h.2.1, h.2.2.1, Or.inl h.2.2.2⟩

lemma newPageIds_cons (s : BPMI) (op : Op) (ops : List Op) :
    newPageIds s (op :: ops) =
      newPageHead op (newPage s).1 ++ newPageIds (stepOp s op) ops := rfl

lemma newPageIds_mod (num idx : Nat) (ops : List Op) : ∀ (s : BPMI),
    s.num_instances = num → s.next_page_id % (num : Int) = (idx : Int) →
    ∀ pid ∈ newPageIds s ops, pid % (num : Int) = (idx : Int) := by
  induction ops with
  | nil =>
    intro s _ _ pid hpid
    simp [newPageIds] at hpid
  | cons op t ih =>
    intro s hnum hmod pid hpid
    have hnext : (stepOp s op).num_instances = num ∧
        (stepOp s op).next_page_id % (num : Int) = (idx : Int) := by
      have h := stepOp_static_next s op
      refine ⟨h.2.1.trans hnum, ?_⟩
      rcases h.2.2.2 with h2 | h2
      · rw [h2]; exact hmod
      · rw [h2, hnum]
        have : (s.next_page_id + (num : Int)) % (num : Int) = s.next_page_id % (num : Int) := by
          have h3 := Int.add_mul_emod_self_left s.next_page_id (num : Int) 1
          rw [mul_one] at h3
          exact h3
        rw [this]; exact hmod
    rw [newPageIds_cons] at hpid
    rcases List.mem_append.mp hpid with h1 | h2
    · cases op with
      | newP =>
        simp [newPageHead] at h1
        obtain ⟨x, hx⟩ := h1
        have hp2 := newPage_some_pid s (pid, x) hx
        rw [show pid = s.next_page_id from hp2]
        exact hmod
      | fetch pid2 => simp [newPageHead] at h1
      | unpin pid2 d => simp [newPageHead] at h1
      | flush pid2 => simp [newPageHead] at h1
      | flushAll => simp [newPageHead] at h1
      | delete pid2 => simp [newPageHead] at h1
    · exact ih (stepOp s op) hnext.1 hnext.2 pid h2

/-- C5: `AllocatePage` returns the current `next_page_id` and advances it by
`num_instances` (first conjunct, definitional); consequently every page id
ever returned by `NewPage` over any trace from a fresh BPMI is congruent to
`instance_index` modulo `num_instances`; and with `num_instances = 4`,
`instance_index = 2` four successive `NewPage` calls return 2, 6, 10, 14. -/
theorem C5_allocator_striping (pool num idx : Nat) (_hnum : 0 < num) (hidx : idx < num)
    (ops : List Op) :
    (∀ u : BPMI, allocatePage u =
      (u.next_page_id, { u with next_page_id := u.next_page_id + u.num_instances })) ∧
    (∀ pid ∈ newPageIds (mkBPMI pool num idx) ops, pid % (num : Int) = (idx : Int)) ∧
    newPageIds (mkBPMI 4 4 2) [Op.newP, Op.newP, Op.newP, Op.newP] = [2, 6, 10, 14] := by
  refine ⟨fun u => rfl, ?_, by decide⟩
  apply newPageIds_mod num idx ops (mkBPMI pool num idx) rfl
  show (idx : Int) % (num : Int) = (idx : Int)
  apply Int.emod_eq_of_lt
  · exact Int.ofNat_nonneg idx
  · exact_mod_cast hidx

/-- C5 witness: instantiated at `num_instances = 4`, `instance_index = 2`:
the single id allocated by one `NewPage` on a fresh pool is 2, and 2 mod 4
is 2. -/
theorem C5_witness :
    (0 < 4 ∧ 2 < 4) ∧ ∀ pid ∈ newPageIds (mkBPMI 4 4 2) [Op.newP], pid % (4 : Int) = (2 : Int) :=
  ⟨⟨by decide, by decide⟩,
   (C5_allocator_striping 4 4 2 (by decide) (by decide) [Op.newP]).2.1⟩

/-! ## C8: n FetchPage hits followed by n successful UnpinPage calls -/

lemma fetchPage_hit_effect (s : BPMI) (pid : PageId) (fid : Nat)
    (h : alLookup s.page_table pid = some fid) (hlen : fid < s.pages.length) :
    (fetchPage s pid).2.page_table = s.page_table ∧
    (fetchPage s pid).2.pages.length = s.pages.length ∧
    ((fetchPage s pid).2.pages.getD fid default).pin_count =
      (s.pages.getD fid default).pin_count + 1 := by
  rw [fetchPage_hit s pid fid h]
  refine ⟨rfl, updateFrame_length _ _ _, ?_⟩
  show ((updateFrame s.pages fid _).getD fid default).pin_count = _
  rw [updateFrame_getD_self _ _ _ hlen]

lemma iterFetch_effect (pid : PageId) (fid : Nat) : ∀ (n : Nat) (s : BPMI),
    alLookup s.page_table pid = some fid → fid < s.pages.length →
    alLookup (iterFetch pid n s).page_table pid = some fid ∧
    (iterFetch pid n s).pages.length = s.pages.length ∧
    ((iterFetch pid n s).pages.getD fid default).pin_count =
      (s.pages.getD fid default).pin_count + n := by
  intro n
  induction n with
  | zero => exact fun s h hlen => ⟨h, rfl, rfl⟩
  | succ m ih =>
    intro s h hlen
    have he := fetchPage_hit_effect s pid fid h hlen
    have hrec := ih (fetchPage s pid).2 (by rw [he.1]; exact h) (by rw [he.2.1]; exact hlen)
    refine ⟨hrec.1, hrec.2.1.trans he.2.1, ?_⟩
    show ((iterFetch pid m (fetchPage s pid).2).pages.getD fid default).pin_count = _
    rw [hrec.2.2, he.2.2]
    omega

lemma unpinPage_dec_effect (s : BPMI) (pid : PageId) (fid : Nat)
    (h : alLookup s.page_table pid = some fid) (hlen : fid < s.pages.length)
    (hpos : (s.pages.getD fid default).pin_count ≠ 0) :
    (unpinPage s pid false).1 = true ∧
    (unpinPage s pid false).2.page_table = s.page_table ∧
    (unpinPage s pid false).2.pages.length = s.pages.length ∧
    ((unpinPage s pid false).2.pages.getD fid default).pin_count =
      (s.pages.getD fid default).pin_count - 1 := by
  rw [unpinPage_success s pid fid false h hpos]
  have hpages : ((updateFrame (updateFrame s.pages fid (fun f => { f with is_dirty := false })) fid
      (fun f => { f with pin_count := f.pin_count - 1 })).getD fid default).pin_count =
      (s.pages.getD fid default).pin_count - 1 := by
    rw [updateFrame_comp, updateFrame_getD_self _ _ _ hlen]
  have hlen2 : (updateFrame (updateFrame s.pages fid (fun f => { f with is_dirty := false })) fid
      (fun f => { f with pin_count := f.pin_count - 1 })).length = s.pages.length := by
    rw [updateFrame_length, updateFrame_length]
  refine ⟨rfl, ?_, ?_, ?_⟩
  · dsimp only
    split
    · rfl
    · rfl
  · dsimp only
    split
    · exact hlen2
    · exact hlen2
  · dsimp only
    split
    · exact hpages
    · exact hpages

lemma iterUnpin_effect (pid : PageId) (fid : Nat) : ∀ (n : Nat) (s : BPMI),
    alLookup s.page_table pid = some fid → fid < s.pages.length →
    n ≤ (s.pages.getD fid default).pin_count →
    (iterUnpin pid n s).1 = true ∧
    ((iterUnpin pid n s).2.pages.getD fid default).pin_count =
      (s.pages.getD fid default).pin_count - n := by
  intro n
  induction n with
  | zero => exact fun s h hlen hle => ⟨rfl, rfl⟩
  | succ m ih =>
    intro s h hlen hle
    have hpos : (s.pages.getD fid default).pin_count ≠ 0 := by omega
    have he := unpinPage_dec_effect s pid fid h hlen hpos
    have hrec := ih (unpinPage s pid false).2 (by rw [he.2.1]; exact h)
      (by rw [he.2.2.1]; exact hlen) (by rw [he.2.2.2]; omega)
    constructor
    · show ((unpinPage s pid false).1 && (iterUnpin pid m (unpinPage s pid false).2).1) = true
      rw [he.1, hrec.1]
      rfl
    · show ((iterUnpin pid m (unpinPage s pid false).2).2.pages.getD fid default).pin_count = _
      rw [hrec.2, he.2.2.2]
      omega

/-- C8: for a resident page `pid` in frame `fid`, `n` `FetchPage pid` calls
(all hits) followed by `n` `UnpinPage(pid, false)` calls all succeed and
leave the frame's pin count exactly where it started. -/
theorem C8_fetch_unpin_balance (s : BPMI) (pid : PageId) (fid : Nat) (n : Nat)
    (h : alLookup s.page_table pid = some fid) (hlen : fid < s.pages.length) :
    (iterUnpin pid n (iterFetch pid n s)).1 = true ∧
    ((iterUnpin pid n (iterFetch pid n s)).2.pages.getD fid default).pin_count =
      (s.pages.getD fid default).pin_count := by
  have hf := iterFetch_effect pid fid n s h hlen
  have hu := iterUnpin_effect pid fid n (iterFetch pid n s) hf.1
    (by rw [hf.2.1]; exact hlen) (by rw [hf.2.2]; omega)
  refine ⟨hu.1, ?_⟩
  rw [hu.2, hf.2.2]
  omega

/-- C8 witness: page 0 resident with pin count 1; three fetches and three
unpins all succeed and restore pin count 1. -/
theorem C8_witness :
    alLookup (run (mkBPMI 1 1 0) [Op.newP]).page_table 0 = some 0 ∧
    (0 : Nat) < (run (mkBPMI 1 1 0) [Op.newP]).pages.length ∧
    (iterUnpin 0 3 (iterFetch 0 3 (run (mkBPMI 1 1 0) [Op.newP]))).1 = true ∧
    ((iterUnpin 0 3 (iterFetch 0 3 (run (mkBPMI 1 1 0) [Op.newP]))).2.pages.getD 0 default).pin_count =
      ((run (mkBPMI 1 1 0) [Op.newP]).pages.getD 0 default).pin_count := by
  have h := C8_fetch_unpin_balance (run (mkBPMI 1 1 0) [Op.newP]) 0 0 3 (by decide) (by decide)
  exact ⟨by decide, by decide, h.1, h.2⟩

/-! ## C2: the state invariant and its preservation -/

lemma mem_vals_of_lookup {t : List (PageId × Nat)} {pid : PageId} {fid : Nat}
    (h : alLookup t pid = some fid) : fid ∈ t.map Prod.snd :=
  List.mem_map.mpr ⟨(pid, fid), alLookup_some_mem _ _ _ h, rfl⟩

lemma nodup_middle_split {α : Type} {x y : List α} {a : α}
    (h : (x ++ a :: y).Nodup) : a ∉ x ∧ a ∉ y ∧ (x ++ y).Nodup := by
  rw [List.nodup_middle] at h
  rcases List.nodup_cons.mp h with ⟨h1, h2⟩
  simp only [List.mem_append] at h1
  push_neg at h1
  exact ⟨h1.1, h1.2, h2⟩

lemma erase_sublist_of_middle {α : Type} (x y : List α) (a : α) :
    (x ++ y).Sublist (x ++ a :: y) :=
  List.Sublist.append_left (List.sublist_cons_self a y) x

lemma inv_mk (pool num idx : Nat) (hnum : 0 < num) : StateInv (mkBPMI pool num idx) := by
  refine ⟨?_, rfl, hnum, List.nodup_range pool, by simp [mkBPMI], by simp [mkBPMI],
    ?_, ?_, ?_, ?_, rfl, by simp [mkReplacer, mkBPMI], ?_, ?_, ?_⟩
  · simp [mkBPMI]
  · intro g hg
    simp [mkBPMI]
  · intro g
    simp [mkBPMI, List.mem_range]
  · intro e he
    simp [mkBPMI] at he
  · intro e he
    simp [mkBPMI] at he
  · intro g hg
    simp [mkBPMI, mkReplacer] at hg
  · intro g hg
    simp [mkBPMI, mkReplacer] at hg
  · intro e he
    simp [mkBPMI] at he

lemma inv_flush (s : BPMI) (pid : PageId) (h : StateInv s) : StateInv (flushPage s pid).2 := by
  cases hl : alLookup s.page_table pid with
  | none =>
    rw [flushPage_absent s pid hl]
    exact h
  | some fid =>
    rw [flushPage_resident s pid fid hl]
    refine ⟨?_, h.cap_eq, h.num_pos, h.free_nodup, h.keys_nodup, h.vals_nodup,
      h.free_disjoint, h.frame_complete, ?_, h.keys_lt_next, h.map_eq_list,
      h.lru_nodup, h.lru_lt, ?_, ?_⟩
    · show (updateFrame s.pages fid _).length = s.pool_size
      rw [updateFrame_length]
      exact h.pages_len
    · intro e he
      show ((updateFrame s.pages fid _).getD e.2 default).page_id = e.1
      rw [updateFrame_getD_keep s.pages fid e.2 (fun f => { f with is_dirty := false })
        Frame.page_id (fun f => rfl)]
      exact h.table_pageid e he
    · intro g hg
      show ((updateFrame s.pages fid _).getD g default).pin_count = 0
      rw [updateFrame_getD_keep s.pages fid g (fun f => { f with is_dirty := false })
        Frame.pin_count (fun f => rfl)]
      exact h.lru_pin0 g hg
    · intro e he hpin
      apply h.resident_pin0_lru e he
      rw [updateFrame_getD_keep s.pages fid e.2 (fun f => { f with is_dirty := false })
        Frame.pin_count (fun f => rfl)] at hpin
      exact hpin

lemma inv_flushAll (s : BPMI) (h : StateInv s) : StateInv (flushAllPages s) := by
  obtain ⟨hpool, hnum, hidx, hnext, htab, hfree, hrep, hlen, hpg, hpin⟩ :=
    foldl_flushEntry_proj s.page_table s
  unfold flushAllPages
  refine ⟨?_, ?_, ?_, ?_, ?_, ?_, ?_, ?_, ?_, ?_, ?_, ?_, ?_, ?_, ?_⟩
  · rw [hlen, hpool]; exact h.pages_len
  · rw [hrep, hpool]; exact h.cap_eq
  · rw [hnum]; exact h.num_pos
  · rw [hfree]; exact h.free_nodup
  · rw [htab]; exact h.keys_nodup
  · rw [htab]; exact h.vals_nodup
  · rw [hfree, htab]; exact h.free_disjoint
  · rw [hpool, hfree, htab]; exact h.frame_complete
  · rw [htab]
    intro e he
    rw [hpg e.2]
    exact h.table_pageid e he
  · rw [htab, hnext]; exact h.keys_lt_next
  · rw [hrep]; exact h.map_eq_list
  · rw [hrep]; exact h.lru_nodup
  · rw [hrep, hpool]; exact h.lru_lt
  · rw [hrep]
    intro g hg
    rw [hpin g]
    exact h.lru_pin0 g hg
  · rw [htab, hrep]
    intro e he hp2
    rw [hpin e.2] at hp2
    exact h.resident_pin0_lru e he hp2

lemma inv_unpin (s : BPMI) (pid : PageId) (d : Bool) (h : StateInv s) :
    StateInv (unpinPage s pid d).2 := by
  cases hl : alLookup s.page_table pid with
  | none =>
    rw [unpinPage_absent s pid d hl]
    exact h
  | some fid =>
    have hfid_mem : fid ∈ s.page_table.map Prod.snd := mem_vals_of_lookup hl
    have hfid_lt : fid < s.pool_size := (h.frame_complete fid).mpr (Or.inr hfid_mem)
    have hfid_len : fid < s.pages.length := by rw [h.pages_len]; exact hfid_lt
    by_cases hz : (s.pages.getD fid default).pin_count = 0
    · rw [unpinPage_failzero s pid fid d hl hz]
      refine ⟨?_, h.cap_eq, h.num_pos, h.free_nodup, h.keys_nodup, h.vals_nodup,
        h.free_disjoint, h.frame_complete, ?_, h.keys_lt_next, h.map_eq_list,
        h.lru_nodup, h.lru_lt, ?_, ?_⟩
      · show (updateFrame s.pages fid _).length = s.pool_size
        rw [updateFrame_length]
        exact h.pages_len
      · intro e he
        show ((updateFrame s.pages fid _).getD e.2 default).page_id = e.1
        rw [updateFrame_getD_keep s.pages fid e.2 (fun f => { f with is_dirty := d })
          Frame.page_id (fun f => rfl)]
        exact h.table_pageid e he
      · intro g hg
        show ((updateFrame s.pages fid _).getD g default).pin_count = 0
        rw [updateFrame_getD_keep s.pages fid g (fun f => { f with is_dirty := d })
          Frame.pin_count (fun f => rfl)]
        exact h.lru_pin0 g hg
      · intro e he hpin
        apply h.resident_pin0_lru e he
        rw [updateFrame_getD_keep s.pages fid e.2 (fun f => { f with is_dirty := d })
          Frame.pin_count (fun f => rfl)] at hpin
        exact hpin
    · rw [unpinPage_success s pid fid d hl hz]
      have hfid_not_lru : fid ∉ s.replacer.lru_list := fun hm => hz (h.lru_pin0 fid hm)
      have hpoint_ne : ∀ j, j ≠ fid →
          (updateFrame (updateFrame s.pages fid (fun f => { f with is_dirty := d })) fid
            (fun f => { f with pin_count := f.pin_count - 1 })).getD j default
            = s.pages.getD j default := by
        intro j hj
        rw [updateFrame_getD_ne _ _ _ _ hj, updateFrame_getD_ne _ _ _ _ hj]
      have hpgid : ∀ j,
          ((updateFrame (updateFrame s.pages fid (fun f => { f with is_dirty := d })) fid
            (fun f => { f with pin_count := f.pin_count - 1 })).getD j default).page_id
            = (s.pages.getD j default).page_id := by
        intro j
        by_cases hj : j = fid
        · subst hj
          rw [updateFrame_comp, updateFrame_getD_self _ _ _ hfid_len]
        · rw [hpoint_ne j hj]
      have hP2len :
          (updateFrame (updateFrame s.pages fid (fun f => { f with is_dirty := d })) fid
            (fun f => { f with pin_count := f.pin_count - 1 })).length = s.pages.length := by
        rw [updateFrame_length, updateFrame_length]
      dsimp only
      split
      · rename_i hc
        have hnotmap : fid ∉ s.replacer.lru_map := by
          rw [h.map_eq_list]
          exact hfid_not_lru
        have hlen_ne : s.replacer.lru_map.length ≠ s.replacer.capacity := by
          rw [h.map_eq_list, h.cap_eq]
          have hlt := length_lt_of_nodup_ub s.replacer.lru_list s.pool_size fid
            h.lru_nodup h.lru_lt hfid_lt hfid_not_lru
          omega
        rw [unpin_inserts s.replacer fid hnotmap hlen_ne]
        refine ⟨?_, h.cap_eq, h.num_pos, h.free_nodup, h.keys_nodup, h.vals_nodup,
          h.free_disjoint, h.frame_complete, ?_, h.keys_lt_next, ?_, ?_, ?_, ?_, ?_⟩
        · show (updateFrame _ _ _).length = s.pool_size
          rw [updateFrame_length, updateFrame_length]
          exact h.pages_len
        · intro e he
          show ((updateFrame _ _ _).getD e.2 default).page_id = e.1
          rw [hpgid e.2]
          exact h.table_pageid e he
        · show fid :: s.replacer.lru_map = fid :: s.replacer.lru_list
          rw [h.map_eq_list]
        · exact List.nodup_cons.mpr ⟨hfid_not_lru, h.lru_nodup⟩
        · intro g hg
          rcases List.mem_cons.mp hg with hg | hg
          · exact hg ▸ hfid_lt
          · exact h.lru_lt g hg
        · intro g hg
          rcases List.mem_cons.mp hg with hg | hg
          · subst hg
            exact hc
          · have hgne : g ≠ fid := fun he => hfid_not_lru (he ▸ hg)
            show ((updateFrame _ _ _).getD g default).pin_count = 0
            rw [hpoint_ne g hgne]
            exact h.lru_pin0 g hg
        · intro e he hp2
          by_cases hef : e.2 = fid
          · rw [hef]
            exact List.mem_cons_self _ _
          · show e.2 ∈ fid :: s.replacer.lru_list
            refine List.mem_cons_of_mem _ ?_
            apply h.resident_pin0_lru e he
            rw [hpoint_ne e.2 hef] at hp2
            exact hp2
      · rename_i hc
        refine ⟨?_, h.cap_eq, h.num_pos, h.free_nodup, h.keys_nodup, h.vals_nodup,
          h.free_disjoint, h.frame_complete, ?_, h.keys_lt_next, h.map_eq_list,
          h.lru_nodup, h.lru_lt, ?_, ?_⟩
        · show (updateFrame _ _ _).length = s.pool_size
          rw [updateFrame_length, updateFrame_length]
          exact h.pages_len
        · intro e he
          show ((updateFrame _ _ _).getD e.2 default).page_id = e.1
          rw [hpgid e.2]
          exact h.table_pageid e he
        · intro g hg
          have hgne : g ≠ fid := fun he => hfid_not_lru (he ▸ hg)
          show ((updateFrame _ _ _).getD g default).pin_count = 0
          rw [hpoint_ne g hgne]
          exact h.lru_pin0 g hg
        · intro e he hp2
          by_cases hef : e.2 = fid
          · exact absurd (hef ▸ hp2) hc
          · apply h.resident_pin0_lru e he
            rw [hpoint_ne e.2 hef] at hp2
            exact hp2

lemma inv_delete (s : BPMI) (pid : PageId) (h : StateInv s) :
    StateInv (deletePage s pid).2 := by
  cases hl : alLookup s.page_table pid with
  | none =>
    rw [deletePage_absent s pid hl]
    exact h
  | some fid =>
    by_cases hpin : (s.pages.getD fid default).pin_count ≠ 0
    · rw [deletePage_pinned s pid fid hl hpin]
      exact h
    · rw [deletePage_resident s pid fid hl hpin]
      have hfid_mem : fid ∈ s.page_table.map Prod.snd := mem_vals_of_lookup hl
      have hfid_not_free : fid ∉ s.free_list := fun hm => h.free_disjoint fid hm hfid_mem
      obtain ⟨l1, l2, ht, hk1, herase⟩ := alErase_decomp s.page_table pid fid hl
      have hvals_eq : s.page_table.map Prod.snd = l1.map Prod.snd ++ fid :: l2.map Prod.snd := by
        rw [ht]
        simp
      have hkeys_eq : s.page_table.map Prod.fst = l1.map Prod.fst ++ pid :: l2.map Prod.fst := by
        rw [ht]
        simp
      have hvmid := nodup_middle_split (hvals_eq ▸ h.vals_nodup)
      have hkmid := nodup_middle_split (hkeys_eq ▸ h.keys_nodup)
      have hvals' : (alErase s.page_table pid).map Prod.snd
          = l1.map Prod.snd ++ l2.map Prod.snd := by
        rw [herase]
        simp
      have hkeys' : (alErase s.page_table pid).map Prod.fst
          = l1.map Prod.fst ++ l2.map Prod.fst := by
        rw [herase]
        simp
      have hmem_sub : ∀ e, e ∈ alErase s.page_table pid → e ∈ s.page_table := by
        intro e he
        rw [herase] at he
        rw [ht]
        rcases List.mem_append.mp he with he | he
        · exact List.mem_append.mpr (Or.inl he)
        · exact List.mem_append.mpr (Or.inr (List.mem_cons_of_mem _ he))
      have hfid_not_vals' : fid ∉ (alErase s.page_table pid).map Prod.snd := by
        rw [hvals']
        intro hm
        rcases List.mem_append.mp hm with hm | hm
        · exact hvmid.1 hm
        · exact hvmid.2.1 hm
      have hvals_mem_iff : ∀ g, g ∈ s.page_table.map Prod.snd ↔
          (g = fid ∨ g ∈ (alErase s.page_table pid).map Prod.snd) := by
        intro g
        rw [hvals_eq, hvals']
        simp only [List.mem_append, List.mem_cons]
        constructor
        · rintro (hg | hg | hg)
          · exact Or.inr (Or.inl hg)
          · exact Or.inl hg
          · exact Or.inr (Or.inr hg)
        · rintro (hg | hg | hg)
          · exact Or.inr (Or.inl hg)
          · exact Or.inl hg
          · exact Or.inr (Or.inr hg)
      have hvals'_sub : ∀ g, g ∈ (alErase s.page_table pid).map Prod.snd →
          g ∈ s.page_table.map Prod.snd := by
        intro g hg
        exact (hvals_mem_iff g).mpr (Or.inr hg)
      have hpoint_ne : ∀ j, j ≠ fid →
          (updateFrame s.pages fid
            (fun f => { f with page_id := INVALID_PAGE_ID, is_dirty := false, data := 0 })).getD
              j default = s.pages.getD j default := by
        intro j hj
        rw [updateFrame_getD_ne _ _ _ _ hj]
      have hpin_keep : ∀ j,
          ((updateFrame s.pages fid
            (fun f => { f with page_id := INVALID_PAGE_ID, is_dirty := false, data := 0 })).getD
              j default).pin_count = (s.pages.getD j default).pin_count := by
        intro j
        exact updateFrame_getD_keep s.pages fid j
          (fun f => { f with page_id := INVALID_PAGE_ID, is_dirty := false, data := 0 })
          Frame.pin_count (fun f => rfl)
      refine ⟨?_, h.cap_eq, h.num_pos, ?_, ?_, ?_, ?_, ?_, ?_, ?_, h.map_eq_list,
        h.lru_nodup, h.lru_lt, ?_, ?_⟩
      · show (updateFrame _ _ _).length = s.pool_size
        rw [updateFrame_length]
        exact h.pages_len
      · show (s.free_list ++ [fid]).Nodup
        rw [List.nodup_append]
        exact ⟨h.free_nodup, List.nodup_singleton fid,
          fun g hg hg2 => hfid_not_free ((List.mem_singleton.mp hg2) ▸ hg)⟩
      · show ((alErase s.page_table pid).map Prod.fst).Nodup
        rw [hkeys']
        exact hkmid.2.2
      · show ((alErase s.page_table pid).map Prod.snd).Nodup
        rw [hvals']
        exact hvmid.2.2
      · intro g hg
        rcases List.mem_append.mp hg with hg | hg
        · exact fun hm => h.free_disjoint g hg (hvals'_sub g hm)
        · rw [List.mem_singleton.mp hg]
          exact hfid_not_vals'
      · intro g
        rw [h.frame_complete g]
        show _ ↔ g ∈ s.free_list ++ [fid] ∨ g ∈ (alErase s.page_table pid).map Prod.snd
        rw [hvals_mem_iff g]
        simp only [List.mem_append, List.mem_singleton]
        tauto
      · intro e he
        have he2 := hmem_sub e he
        have hene : e.2 ≠ fid := fun hc => hfid_not_vals'
          (hc ▸ List.mem_map.mpr ⟨e, he, rfl⟩)
        show ((updateFrame _ _ _).getD e.2 default).page_id = e.1
        rw [hpoint_ne e.2 hene]
        exact h.table_pageid e he2
      · intro e he
        exact h.keys_lt_next e (hmem_sub e he)
      · intro g hg
        show ((updateFrame _ _ _).getD g default).pin_count = 0
        rw [hpin_keep g]
        exact h.lru_pin0 g hg
      · intro e he hp2
        rw [hpin_keep e.2] at hp2
        exact h.resident_pin0_lru e (hmem_sub e he) hp2

lemma getLastD_nil_default (a : Nat) : ([] : List Nat).getLastD a = a := rfl

lemma mem_dropLast_of_ne_getLastD (g : Nat) : ∀ (L : List Nat) (d : Nat), g ∈ L →
    g ≠ L.getLastD d → g ∈ L.dropLast := by
  intro L
  induction L with
  | nil =>
    intro d hmem _
    simp at hmem
  | cons a t ih =>
    intro d hmem hg
    rw [List.getLastD_cons] at hg
    cases t with
    | nil =>
      simp at hmem
      rw [getLastD_nil_default] at hg
      exact absurd hmem hg
    | cons b t2 =>
      rcases List.mem_cons.mp hmem with hga | hgt
      · rw [hga]
        show a ∈ a :: (b :: t2).dropLast
        exact List.mem_cons_self _ _
      · have h2 := ih a hgt hg
        show g ∈ a :: (b :: t2).dropLast
        exact List.mem_cons_of_mem _ h2

lemma victim_of_nil (r : Replacer) (hnil : r.lru_list = []) : r.victim = (none, r) := by
  have hguard : (r.lru_list.isEmpty || r.lru_map.isEmpty) = true := by
    rw [hnil]
    rfl
  unfold Replacer.victim
  rw [if_pos hguard]

lemma getVictim_table_sub (s : BPMI) (fid : Nat) (s1 : BPMI) (c : Bool)
    (hg : getVictimFrame s = (some fid, s1, c)) :
    ∀ e, e ∈ s1.page_table → e ∈ s.page_table := by
  cases hf : s.free_list with
  | cons a t =>
    rw [getVictim_free s a t hf] at hg
    rw [Prod.mk.injEq, Prod.mk.injEq] at hg
    obtain ⟨_, hs1, _⟩ := hg
    rw [← hs1]
    exact fun e he => he
  | nil =>
    by_cases hp : s.pages.all (fun p => p.pin_count != 0) = true
    · rw [getVictim_allpinned s hf hp] at hg
      rw [Prod.mk.injEq] at hg
      exact absurd hg.1 (by simp)
    · rcases hv : s.replacer.victim with ⟨o, r1⟩
      cases o with
      | none =>
        have hr : r1 = s.replacer := by
          have hh := victim_none_state s.replacer (by rw [hv])
          rw [hv] at hh
          exact hh
        subst hr
        rw [getVictim_replacer_none s hf hp hv] at hg
        rw [Prod.mk.injEq] at hg
        exact absurd hg.1 (by simp)
      | some v =>
        rw [getVictim_replacer_some s v r1 hf hp hv] at hg
        rw [Prod.mk.injEq, Prod.mk.injEq] at hg
        obtain ⟨hfid, hs1, _⟩ := hg
        rw [← hs1]
        intro e he
        replace he : e ∈ alErase s.page_table (s.pages.getD v default).page_id := he
        cases hlk : alLookup s.page_table (s.pages.getD v default).page_id with
        | none =>
          rw [alErase_of_none _ _ hlk] at he
          exact he
        | some w =>
          obtain ⟨l1, l2, ht, _, herase⟩ :=
            alErase_decomp s.page_table (s.pages.getD v default).page_id w hlk
          rw [herase] at he
          rw [ht]
          rcases List.mem_append.mp he with he | he
          · exact List.mem_append.mpr (Or.inl he)
          · exact List.mem_append.mpr (Or.inr (List.mem_cons_of_mem _ he))

lemma acq_of_getVictim (s : BPMI) (h : StateInv s) (fid : Nat) (s1 : BPMI) (c : Bool)
    (hg : getVictimFrame s = (some fid, s1, c)) : AcqInv s1 fid := by
  cases hf : s.free_list with
  | cons a t =>
    rw [getVictim_free s a t hf] at hg
    rw [Prod.mk.injEq, Prod.mk.injEq] at hg
    obtain ⟨hfid, hs1, _⟩ := hg
    injection hfid with hfid
    subst hfid
    rw [← hs1]
    have hmemfree : a ∈ s.free_list := by
      rw [hf]
      exact List.mem_cons_self _ _
    have hfreenodup := h.free_nodup
    rw [hf] at hfreenodup
    refine ⟨h.pages_len, h.cap_eq, h.num_pos, (List.nodup_cons.mp hfreenodup).2,
      h.keys_nodup, h.vals_nodup, ?_, ?_, (List.nodup_cons.mp hfreenodup).1,
      h.free_disjoint a hmemfree, ?_, h.table_pageid, h.keys_lt_next, h.map_eq_list,
      h.lru_nodup, h.lru_lt, h.lru_pin0, h.resident_pin0_lru⟩
    · intro g hg2
      exact h.free_disjoint g (by rw [hf]; exact List.mem_cons_of_mem _ hg2)
    · exact (h.frame_complete a).mpr (Or.inl hmemfree)
    · intro g
      rw [h.frame_complete g, hf]
      simp only [List.mem_cons]
      tauto
  | nil =>
    by_cases hp : s.pages.all (fun p => p.pin_count != 0) = true
    · rw [getVictim_allpinned s hf hp] at hg
      rw [Prod.mk.injEq] at hg
      exact absurd hg.1 (by simp)
    · rcases hv : s.replacer.victim with ⟨o, r1⟩
      cases o with
      | none =>
        have hr : r1 = s.replacer := by
          have hh := victim_none_state s.replacer (by rw [hv])
          rw [hv] at hh
          exact hh
        subst hr
        rw [getVictim_replacer_none s hf hp hv] at hg
        rw [Prod.mk.injEq] at hg
        exact absurd hg.1 (by simp)
      | some v =>
        have hne : s.replacer.lru_list ≠ [] := by
          intro hnil
          have h2 := victim_of_nil s.replacer hnil
          rw [hv] at h2
          simp at h2
        have hspec := victim_spec s.replacer h.map_eq_list h.lru_nodup hne
        rw [hv, Prod.mk.injEq] at hspec
        obtain ⟨hv1, hr1⟩ := hspec
        injection hv1 with hv1
        subst hv1
        subst hr1
        rw [getVictim_replacer_some s _ _ hf hp hv] at hg
        rw [Prod.mk.injEq, Prod.mk.injEq] at hg
        obtain ⟨hfid, hs1, _⟩ := hg
        injection hfid with hfid
        subst hfid
        rw [← hs1]
        have hvm : s.replacer.lru_list.getLastD 0 ∈ s.replacer.lru_list :=
          getLastD_mem _ 0 hne
        have hfpin : (s.pages.getD (s.replacer.lru_list.getLastD 0) default).pin_count = 0 :=
          h.lru_pin0 _ hvm
        have hflt : s.replacer.lru_list.getLastD 0 < s.pool_size := h.lru_lt _ hvm
        have hfvals : s.replacer.lru_list.getLastD 0 ∈ s.page_table.map Prod.snd := by
          rcases (h.frame_complete _).mp hflt with hc | hc
          · rw [hf] at hc
            simp at hc
          · exact hc
        obtain ⟨e, he, hev⟩ := List.mem_map.mp hfvals
        have hpg : (s.pages.getD (s.replacer.lru_list.getLastD 0) default).page_id = e.1 := by
          have h2 := h.table_pageid e he
          rw [hev] at h2
          exact h2
        have hlook : alLookup s.page_table e.1 = some (s.replacer.lru_list.getLastD 0) := by
          apply alLookup_of_mem_nodup _ _ _ h.keys_nodup
          rw [← hev]
          exact he
        obtain ⟨l1, l2, ht, hk1, herase⟩ := alErase_decomp s.page_table e.1 _ hlook
        have htable : alErase s.page_table
            ((s.pages.getD (s.replacer.lru_list.getLastD 0) default).page_id) = l1 ++ l2 := by
          rw [hpg]
          exact herase
        have hvals_eq : s.page_table.map Prod.snd
            = l1.map Prod.snd ++ s.replacer.lru_list.getLastD 0 :: l2.map Prod.snd := by
          rw [ht]
          simp
        have hkeys_eq : s.page_table.map Prod.fst
            = l1.map Prod.fst ++ e.1 :: l2.map Prod.fst := by
          rw [ht]
          simp
        have hvmid := nodup_middle_split (hvals_eq ▸ h.vals_nodup)
        have hkmid := nodup_middle_split (hkeys_eq ▸ h.keys_nodup)
        have hmem_sub : ∀ e2, e2 ∈ l1 ++ l2 → e2 ∈ s.page_table := by
          intro e2 he2
          rw [ht]
          rcases List.mem_append.mp he2 with he2 | he2
          · exact List.mem_append.mpr (Or.inl he2)
          · exact List.mem_append.mpr (Or.inr (List.mem_cons_of_mem _ he2))
        have hfid_not_vals' : s.replacer.lru_list.getLastD 0 ∉ (l1 ++ l2).map Prod.snd := by
          rw [List.map_append]
          intro hm
          rcases List.mem_append.mp hm with hm | hm
          · exact hvmid.1 hm
          · exact hvmid.2.1 hm
        have hvals_mem_iff : ∀ g, g ∈ s.page_table.map Prod.snd ↔
            (g = s.replacer.lru_list.getLastD 0 ∨ g ∈ (l1 ++ l2).map Prod.snd) := by
          intro g
          rw [hvals_eq, List.map_append]
          simp only [List.mem_append, List.mem_cons]
          tauto
        refine ⟨h.pages_len, h.cap_eq, h.num_pos, h.free_nodup, ?_, ?_, ?_, hflt, ?_, ?_,
          ?_, ?_, ?_, rfl, ?_, ?_, ?_, ?_⟩
        · show ((alErase s.page_table _).map Prod.fst).Nodup
          rw [htable, List.map_append]
          have h2 : (l1.map Prod.fst ++ l2.map Prod.fst).Nodup := hkmid.2.2
          exact h2
        · show ((alErase s.page_table _).map Prod.snd).Nodup
          rw [htable, List.map_append]
          exact hvmid.2.2
        · intro g hg2
          rw [hf] at hg2
          simp at hg2
        · rw [hf]
          simp
        · show s.replacer.lru_list.getLastD 0 ∉ (alErase s.page_table _).map Prod.snd
          rw [htable]
          exact hfid_not_vals'
        · intro g
          rw [h.frame_complete g, hf]
          show _ ↔ _ ∨ g ∈ ([] : List Nat) ∨ g ∈ (alErase s.page_table _).map Prod.snd
          rw [htable, hvals_mem_iff g]
          simp only [List.mem_nil_iff, false_or]
        · intro e2 he2
          replace he2 : e2 ∈ alErase s.page_table
            ((s.pages.getD (s.replacer.lru_list.getLastD 0) default).page_id) := he2
          rw [htable] at he2
          exact h.table_pageid e2 (hmem_sub e2 he2)
        · intro e2 he2
          replace he2 : e2 ∈ alErase s.page_table
            ((s.pages.getD (s.replacer.lru_list.getLastD 0) default).page_id) := he2
          rw [htable] at he2
          exact h.keys_lt_next e2 (hmem_sub e2 he2)
        · exact (List.dropLast_sublist _).nodup h.lru_nodup
        · intro g hg2
          exact h.lru_lt g ((List.dropLast_sublist _).mem hg2)
        · intro g hg2
          exact h.lru_pin0 g ((List.dropLast_sublist _).mem hg2)
        · intro e2 he2 hp2
          replace he2 : e2 ∈ alErase s.page_table
            ((s.pages.getD (s.replacer.lru_list.getLastD 0) default).page_id) := he2
          rw [htable] at he2
          have hmem2 := h.resident_pin0_lru e2 (hmem_sub e2 he2) hp2
          apply mem_dropLast_of_ne_getLastD e2.2 s.replacer.lru_list 0 hmem2
          intro hc
          exact hfid_not_vals' (hc ▸ List.mem_map.mpr ⟨e2, he2, rfl⟩)

lemma inv_bind (t : BPMI) (fid : Nat) (a : AcqInv t fid) (pid : PageId) (nd : Nat)
    (hfresh : pid ∉ t.page_table.map Prod.fst) (hlt : pid < t.next_page_id) :
    StateInv (bindFrame t pid fid nd) := by
  have hfid_len : fid < t.pages.length := by
    rw [a.pages_len]
    exact a.fid_lt
  have htable : alInsert t.page_table pid fid = t.page_table ++ [(pid, fid)] :=
    alInsert_not_mem t.page_table pid fid hfresh
  have hpgid_new : ((updateFrame t.pages fid
      (fun f => { page_id := pid, is_dirty := false, pin_count := f.pin_count + 1,
                  data := nd })).getD fid default).page_id = pid := by
    rw [updateFrame_getD_self _ _ _ hfid_len]
  have hpin_new : ((updateFrame t.pages fid
      (fun f => { page_id := pid, is_dirty := false, pin_count := f.pin_count + 1,
                  data := nd })).getD fid default).pin_count
      = (t.pages.getD fid default).pin_count + 1 := by
    rw [updateFrame_getD_self _ _ _ hfid_len]
  have hpoint_ne : ∀ j, j ≠ fid → (updateFrame t.pages fid
      (fun f => { page_id := pid, is_dirty := false, pin_count := f.pin_count + 1,
                  data := nd })).getD j default = t.pages.getD j default := by
    intro j hj
    rw [updateFrame_getD_ne _ _ _ _ hj]
  have hkeys_nodup : ((t.page_table ++ [(pid, fid)]).map Prod.fst).Nodup := by
    rw [List.map_append]
    rw [List.nodup_append]
    refine ⟨a.keys_nodup, by simp, ?_⟩
    intro g hg hg2
    simp at hg2
    exact hfresh (hg2 ▸ hg)
  have hvals_nodup : ((t.page_table ++ [(pid, fid)]).map Prod.snd).Nodup := by
    rw [List.map_append]
    rw [List.nodup_append]
    refine ⟨a.vals_nodup, by simp, ?_⟩
    intro g hg hg2
    simp at hg2
    exact a.fid_not_resident (hg2 ▸ hg)
  have hmem_split : ∀ e, e ∈ t.page_table ++ [(pid, fid)] →
      e ∈ t.page_table ∨ e = (pid, fid) := by
    intro e he
    rcases List.mem_append.mp he with he | he
    · exact Or.inl he
    · exact Or.inr (List.mem_singleton.mp he)
  have hold_ne : ∀ e, e ∈ t.page_table → e.2 ≠ fid := by
    intro e he hc
    exact a.fid_not_resident (hc ▸ List.mem_map.mpr ⟨e, he, rfl⟩)
  have hpin_eq := pin_of_map_eq t.replacer fid a.map_eq_list
  unfold bindFrame
  rw [htable, hpin_eq]
  split
  · rename_i hin
    refine ⟨?_, a.cap_eq, a.num_pos, a.free_nodup, hkeys_nodup, hvals_nodup, ?_, ?_, ?_, ?_,
      rfl, a.lru_nodup.erase fid, ?_, ?_, ?_⟩
    · show (updateFrame _ _ _).length = t.pool_size
      rw [updateFrame_length]
      exact a.pages_len
    · intro g hg
      rw [List.map_append, List.mem_append]
      rintro (hm | hm)
      · exact a.free_disjoint g hg hm
      · simp at hm
        exact a.fid_not_free (hm ▸ hg)
    · intro g
      rw [a.frame_complete g, List.map_append, List.mem_append]
      simp only [List.map_cons, List.map_nil, List.mem_singleton]
      tauto
    · intro e he
      rcases hmem_split e he with he2 | he2
      · show ((updateFrame _ _ _).getD e.2 default).page_id = e.1
        rw [hpoint_ne e.2 (hold_ne e he2)]
        exact a.table_pageid e he2
      · rw [he2]
        exact hpgid_new
    · intro e he
      rcases hmem_split e he with he2 | he2
      · exact a.keys_lt_next e he2
      · rw [he2]
        exact hlt
    · intro g hg
      exact a.lru_lt g (List.mem_of_mem_erase hg)
    · intro g hg
      rcases (a.lru_nodup.mem_erase_iff).mp hg with ⟨hgne, hgmem⟩
      show ((updateFrame _ _ _).getD g default).pin_count = 0
      rw [hpoint_ne g hgne]
      exact a.lru_pin0 g hgmem
    · intro e he hp2
      rcases hmem_split e he with he2 | he2
      · refine (a.lru_nodup.mem_erase_iff).mpr ⟨hold_ne e he2, ?_⟩
        apply a.resident_pin0_lru e he2
        rw [hpoint_ne e.2 (hold_ne e he2)] at hp2
        exact hp2
      · rw [he2] at hp2
        replace hp2 : ((updateFrame t.pages fid
            (fun f => { page_id := pid, is_dirty := false, pin_count := f.pin_count + 1,
                        data := nd })).getD fid default).pin_count = 0 := hp2
        rw [hpin_new] at hp2
        simp at hp2
  · rename_i hout
    refine ⟨?_, a.cap_eq, a.num_pos, a.free_nodup, hkeys_nodup, hvals_nodup, ?_, ?_, ?_, ?_,
      a.map_eq_list, a.lru_nodup, a.lru_lt, ?_, ?_⟩
    · show (updateFrame _ _ _).length = t.pool_size
      rw [updateFrame_length]
      exact a.pages_len
    · intro g hg
      rw [List.map_append, List.mem_append]
      rintro (hm | hm)
      · exact a.free_disjoint g hg hm
      · simp at hm
        exact a.fid_not_free (hm ▸ hg)
    · intro g
      rw [a.frame_complete g, List.map_append, List.mem_append]
      simp only [List.map_cons, List.map_nil, List.mem_singleton]
      tauto
    · intro e he
      rcases hmem_split e he with he2 | he2
      · show ((updateFrame _ _ _).getD e.2 default).page_id = e.1
        rw [hpoint_ne e.2 (hold_ne e he2)]
        exact a.table_pageid e he2
      · rw [he2]
        exact hpgid_new
    · intro e he
      rcases hmem_split e he with he2 | he2
      · exact a.keys_lt_next e he2
      · rw [he2]
        exact hlt
    · intro g hg
      have hgne : g ≠ fid := fun hc => hout (hc ▸ hg)
      show ((updateFrame _ _ _).getD g default).pin_count = 0
      rw [hpoint_ne g hgne]
      exact a.lru_pin0 g hg
    · intro e he hp2
      rcases hmem_split e he with he2 | he2
      · apply a.resident_pin0_lru e he2
        rw [hpoint_ne e.2 (hold_ne e he2)] at hp2
        exact hp2
      · rw [he2] at hp2
        replace hp2 : ((updateFrame t.pages fid
            (fun f => { page_id := pid, is_dirty := false, pin_count := f.pin_count + 1,
                        data := nd })).getD fid default).pin_count = 0 := hp2
        rw [hpin_new] at hp2
        simp at hp2

lemma inv_alloc (s : BPMI) (h : StateInv s) : StateInv (allocatePage s).2 := by
  refine ⟨h.pages_len, h.cap_eq, h.num_pos, h.free_nodup, h.keys_nodup, h.vals_nodup,
    h.free_disjoint, h.frame_complete, h.table_pageid, ?_, h.map_eq_list, h.lru_nodup,
    h.lru_lt, h.lru_pin0, h.resident_pin0_lru⟩
  intro e he
  have h2 := h.keys_lt_next e he
  have hnum : (0 : Int) < (s.num_instances : Int) := by exact_mod_cast h.num_pos
  show e.1 < s.next_page_id + (s.num_instances : Int)
  exact lt_of_lt_of_le h2 (le_add_of_nonneg_right (le_of_lt hnum))

lemma inv_newPage (s : BPMI) (h : StateInv s) : StateInv (newPage s).2 := by
  have h0 := inv_alloc s h
  rcases hg : getVictimFrame (allocatePage s).2 with ⟨o, s1, c⟩
  cases o with
  | none =>
    rw [newPage_of_fail s s1 c hg]
    have h3 := getVictim_none_state (allocatePage s).2 (by rw [hg])
    rw [hg] at h3
    replace h3 : s1 = (allocatePage s).2 := h3
    show StateInv s1
    rw [h3]
    exact h0
  | some fid =>
    rw [newPage_of_acquire s fid s1 c hg]
    have ha := acq_of_getVictim (allocatePage s).2 h0 fid s1 c hg
    have hsub := getVictim_table_sub (allocatePage s).2 fid s1 c hg
    have hnum : (0 : Int) < (s.num_instances : Int) := by exact_mod_cast h.num_pos
    refine inv_bind s1 fid ha s.next_page_id 0 ?_ ?_
    · intro hm
      obtain ⟨e, he, hev⟩ := List.mem_map.mp hm
      have he2 : e ∈ s.page_table := hsub e he
      have h4 := h.keys_lt_next e he2
      rw [hev] at h4
      exact absurd h4 (lt_irrefl _)
    · have hnext := (getVictim_proj (allocatePage s).2).2.2.2.1
      rw [hg] at hnext
      rw [hnext]
      show s.next_page_id < s.next_page_id + (s.num_instances : Int)
      exact lt_add_of_pos_right s.next_page_id hnum

lemma inv_fetch (s : BPMI) (pid : PageId) (h : StateInv s) (hvp : pid < s.next_page_id) :
    StateInv (fetchPage s pid).2 := by
  cases hl : alLookup s.page_table pid with
  | some fid =>
    rw [fetchPage_hit s pid fid hl]
    have hfid_mem : fid ∈ s.page_table.map Prod.snd := mem_vals_of_lookup hl
    have hfid_lt : fid < s.pool_size := (h.frame_complete fid).mpr (Or.inr hfid_mem)
    have hfid_len : fid < s.pages.length := by
      rw [h.pages_len]
      exact hfid_lt
    have hpoint_ne : ∀ j, j ≠ fid → (updateFrame s.pages fid
        (fun f => { f with pin_count := f.pin_count + 1 })).getD j default
        = s.pages.getD j default := by
      intro j hj
      rw [updateFrame_getD_ne _ _ _ _ hj]
    have hpgid : ∀ j, ((updateFrame s.pages fid
        (fun f => { f with pin_count := f.pin_count + 1 })).getD j default).page_id
        = (s.pages.getD j default).page_id := by
      intro j
      exact updateFrame_getD_keep s.pages fid j
        (fun f => { f with pin_count := f.pin_count + 1 }) Frame.page_id (fun f => rfl)
    have hpin_new : ((updateFrame s.pages fid
        (fun f => { f with pin_count := f.pin_count + 1 })).getD fid default).pin_count
        = (s.pages.getD fid default).pin_count + 1 := by
      rw [updateFrame_getD_self _ _ _ hfid_len]
    have hpin_eq := pin_of_map_eq s.replacer fid h.map_eq_list
    rw [hpin_eq]
    split
    · rename_i hin
      refine ⟨?_, h.cap_eq, h.num_pos, h.free_nodup, h.keys_nodup, h.vals_nodup,
        h.free_disjoint, h.frame_complete, ?_, h.keys_lt_next, rfl, h.lru_nodup.erase fid,
        ?_, ?_, ?_⟩
      · show (updateFrame _ _ _).length = s.pool_size
        rw [updateFrame_length]
        exact h.pages_len
      · intro e he
        show ((updateFrame _ _ _).getD e.2 default).page_id = e.1
        rw [hpgid e.2]
        exact h.table_pageid e he
      · intro g hg
        exact h.lru_lt g (List.mem_of_mem_erase hg)
      · intro g hg
        rcases (h.lru_nodup.mem_erase_iff).mp hg with ⟨hgne, hgmem⟩
        show ((updateFrame _ _ _).getD g default).pin_count = 0
        rw [hpoint_ne g hgne]
        exact h.lru_pin0 g hgmem
      · intro e he hp2
        by_cases hef : e.2 = fid
        · rw [hef] at hp2
          replace hp2 : ((updateFrame s.pages fid
              (fun f => { f with pin_count := f.pin_count + 1 })).getD fid default).pin_count
              = 0 := hp2
          rw [hpin_new] at hp2
          simp at hp2
        · refine (h.lru_nodup.mem_erase_iff).mpr ⟨hef, ?_⟩
          apply h.resident_pin0_lru e he
          rw [hpoint_ne e.2 hef] at hp2
          exact hp2
    · rename_i hout
      refine ⟨?_, h.cap_eq, h.num_pos, h.free_nodup, h.keys_nodup, h.vals_nodup,
        h.free_disjoint, h.frame_complete, ?_, h.keys_lt_next, h.map_eq_list, h.lru_nodup,
        h.lru_lt, ?_, ?_⟩
      · show (updateFrame _ _ _).length = s.pool_size
        rw [updateFrame_length]
        exact h.pages_len
      · intro e he
        show ((updateFrame _ _ _).getD e.2 default).page_id = e.1
        rw [hpgid e.2]
        exact h.table_pageid e he
      · intro g hg
        have hgne : g ≠ fid := fun hc => hout (hc ▸ hg)
        show ((updateFrame _ _ _).getD g default).pin_count = 0
        rw [hpoint_ne g hgne]
        exact h.lru_pin0 g hg
      · intro e he hp2
        by_cases hef : e.2 = fid
        · rw [hef] at hp2
          replace hp2 : ((updateFrame s.pages fid
              (fun f => { f with pin_count := f.pin_count + 1 })).getD fid default).pin_count
              = 0 := hp2
          rw [hpin_new] at hp2
          simp at hp2
        · apply h.resident_pin0_lru e he
          rw [hpoint_ne e.2 hef] at hp2
          exact hp2
  | none =>
    rcases hg : getVictimFrame s with ⟨o, s1, c⟩
    cases o with
    | none =>
      rw [fetchPage_miss_fail s pid s1 c hl hg]
      have h3 := getVictim_none_state s (by rw [hg])
      rw [hg] at h3
      replace h3 : s1 = s := h3
      show StateInv s1
      rw [h3]
      exact h
    | some fid =>
      rw [fetchPage_miss_acquire s pid fid s1 c hl hg]
      have ha := acq_of_getVictim s h fid s1 c hg
      have hsub := getVictim_table_sub s fid s1 c hg
      refine inv_bind s1 fid ha pid (diskRead s1.disk pid) ?_ ?_
      · intro hm
        obtain ⟨e, he, hev⟩ := List.mem_map.mp hm
        have he2 : e ∈ s.page_table := hsub e he
        have hnone := (alLookup_eq_none s.page_table pid).mp hl
        exact hnone (hev ▸ List.mem_map.mpr ⟨e, he2, rfl⟩)
      · have hnext := (getVictim_proj s).2.2.2.1
        rw [hg] at hnext
        rw [hnext]
        exact hvp

lemma beq_zero_eq_not_bne (n : Nat) : (n == 0) = !(n != 0) := by
  cases h : n == 0 <;> simp [bne, h]

lemma inv_step (s : BPMI) (op : Op) (h : StateInv s) (hvop : validOp s op = true) :
    StateInv (stepOp s op) := by
  cases op with
  | newP => exact inv_newPage s h
  | fetch pid =>
    apply inv_fetch s pid h
    have hvp : decide (pid < s.next_page_id) = true := hvop
    exact of_decide_eq_true hvp
  | unpin pid d => exact inv_unpin s pid d h
  | flush pid => exact inv_flush s pid h
  | flushAll => exact inv_flushAll s h
  | delete pid => exact inv_delete s pid h

lemma inv_run (ops : List Op) : ∀ s : BPMI, StateInv s → validTrace s ops = true →
    StateInv (run s ops) := by
  induction ops with
  | nil =>
    intro s h _
    exact h
  | cons op t ih =>
    intro s h hv
    have hv2 : validOp s op = true ∧ validTrace (stepOp s op) t = true := by
      have : (validOp s op && validTrace (stepOp s op) t) = true := hv
      exact Bool.and_eq_true_iff.mp this
    exact ih (stepOp s op) (inv_step s op h hv2.1) hv2.2

/-- C2 counterexample: on a pool of size 1, after `NewPage`, `UnpinPage(0,
false)`, `DeletePage(0)` (a reachable state), the four sets named by the
claim — page-table frames, free list, pinned resident frames, replacer
evictable set — have sizes summing to 2, not pool_size = 1, and frame 0 is
simultaneously in the free list and in the Replacer's evictable set
(`DeletePgImp` never removes the freed frame from the replacer). -/
theorem C2_counterexample :
    (run (mkBPMI 1 1 0) [Op.newP, Op.unpin 0 false, Op.delete 0]).pool_size = 1 ∧
    (residentFrameIds (run (mkBPMI 1 1 0) [Op.newP, Op.unpin 0 false, Op.delete 0])).length
      + (run (mkBPMI 1 1 0) [Op.newP, Op.unpin 0 false, Op.delete 0]).free_list.length
      + (pinnedResident (run (mkBPMI 1 1 0) [Op.newP, Op.unpin 0 false, Op.delete 0])).length
      + (evictableIds (run (mkBPMI 1 1 0) [Op.newP, Op.unpin 0 false, Op.delete 0])).length
      = 2 ∧
    0 ∈ (run (mkBPMI 1 1 0) [Op.newP, Op.unpin 0 false, Op.delete 0]).free_list ∧
    0 ∈ evictableIds (run (mkBPMI 1 1 0) [Op.newP, Op.unpin 0 false, Op.delete 0]) := by
  decide

/-- C2 (amended): in every state reachable from a fresh BPMI by a well-used
trace (`FetchPage` only invoked on page ids below the allocation counter,
in particular on previously allocated ids), the free list, the pinned
resident frames, and the unpinned resident frames are pairwise disjoint and
their sizes sum to pool_size; the page table's frames are exactly the
pinned and unpinned resident frames; and every unpinned resident frame is
in the Replacer's evictable set.  (The original four-way sum double-counts
the page table, and the free list need not be disjoint from the evictable
set after a DeletePage.) -/
theorem C2_partition_amended (pool num idx : Nat) (hnum : 0 < num) (ops : List Op)
    (hvalid : validTrace (mkBPMI pool num idx) ops = true) :
    (∀ fid ∈ (run (mkBPMI pool num idx) ops).free_list,
        fid ∉ pinnedResident (run (mkBPMI pool num idx) ops) ∧
        fid ∉ unpinnedResident (run (mkBPMI pool num idx) ops)) ∧
    (∀ fid ∈ pinnedResident (run (mkBPMI pool num idx) ops),
        fid ∉ unpinnedResident (run (mkBPMI pool num idx) ops)) ∧
    ((run (mkBPMI pool num idx) ops).free_list.length
        + (pinnedResident (run (mkBPMI pool num idx) ops)).length
        + (unpinnedResident (run (mkBPMI pool num idx) ops)).length
      = (run (mkBPMI pool num idx) ops).pool_size) ∧
    (∀ fid, fid ∈ residentFrameIds (run (mkBPMI pool num idx) ops) ↔
        (fid ∈ pinnedResident (run (mkBPMI pool num idx) ops) ∨
         fid ∈ unpinnedResident (run (mkBPMI pool num idx) ops))) ∧
    (∀ fid ∈ unpinnedResident (run (mkBPMI pool num idx) ops),
        fid ∈ evictableIds (run (mkBPMI pool num idx) ops)) := by
  have hI : StateInv (run (mkBPMI pool num idx) ops) :=
    inv_run ops (mkBPMI pool num idx) (inv_mk pool num idx hnum) hvalid
  have hpinned_sub : ∀ fid, fid ∈ pinnedResident (run (mkBPMI pool num idx) ops) →
      fid ∈ residentFrameIds (run (mkBPMI pool num idx) ops) := by
    intro fid hf
    exact (List.mem_filter.mp hf).1
  have hunpinned_sub : ∀ fid, fid ∈ unpinnedResident (run (mkBPMI pool num idx) ops) →
      fid ∈ residentFrameIds (run (mkBPMI pool num idx) ops) := by
    intro fid hf
    exact (List.mem_filter.mp hf).1
  refine ⟨?_, ?_, ?_, ?_, ?_⟩
  · intro fid hfree
    constructor
    · intro hm
      exact hI.free_disjoint fid hfree (hpinned_sub fid hm)
    · intro hm
      exact hI.free_disjoint fid hfree (hunpinned_sub fid hm)
  · intro fid hp hm
    have h1 := (List.mem_filter.mp hp).2
    have h2 := (List.mem_filter.mp hm).2
    simp only [bne_iff_ne, ne_eq] at h1
    simp only [beq_iff_eq] at h2
    exact h1 h2
  · have hfilters : (pinnedResident (run (mkBPMI pool num idx) ops)).length
        + (unpinnedResident (run (mkBPMI pool num idx) ops)).length
        = (residentFrameIds (run (mkBPMI pool num idx) ops)).length := by
      have hperm := List.filter_append_perm
        (fun fid => (((run (mkBPMI pool num idx) ops).pages.getD fid default).pin_count != 0))
        (residentFrameIds (run (mkBPMI pool num idx) ops))
      have hcongr : unpinnedResident (run (mkBPMI pool num idx) ops)
          = (residentFrameIds (run (mkBPMI pool num idx) ops)).filter
            (fun fid => !(((run (mkBPMI pool num idx) ops).pages.getD fid default).pin_count != 0)) := by
        apply List.filter_congr
        intro x _
        exact beq_zero_eq_not_bne _
      rw [hcongr]
      have := hperm.length_eq
      rw [List.length_append] at this
      exact this
    have hfree_res : ((run (mkBPMI pool num idx) ops).free_list
        ++ residentFrameIds (run (mkBPMI pool num idx) ops)).length
        = (run (mkBPMI pool num idx) ops).pool_size := by
      apply length_eq_of_nodup_iff_lt
      · rw [List.nodup_append]
        exact ⟨hI.free_nodup, hI.vals_nodup, fun g hg => hI.free_disjoint g hg⟩
      · intro x
        rw [List.mem_append]
        exact (hI.frame_complete x).symm
    rw [List.length_append] at hfree_res
    have := hfilters
    omega
  · intro fid
    constructor
    · intro hm
      by_cases hz : ((run (mkBPMI pool num idx) ops).pages.getD fid default).pin_count = 0
      · refine Or.inr (List.mem_filter.mpr ⟨hm, ?_⟩)
        exact beq_iff_eq.mpr hz
      · refine Or.inl (List.mem_filter.mpr ⟨hm, ?_⟩)
        exact bne_iff_ne.mpr hz
    · intro hm
      rcases hm with hm | hm
      · exact hpinned_sub fid hm
      · exact hunpinned_sub fid hm
  · intro fid hm
    have h1 := (List.mem_filter.mp hm).1
    have h2 := (List.mem_filter.mp hm).2
    simp only [beq_iff_eq] at h2
    obtain ⟨e, he, hev⟩ := List.mem_map.mp h1
    have := hI.resident_pin0_lru e he (by rw [hev]; exact h2)
    rw [hev] at this
    exact this

/-- C2 witness: the amended partition instantiated on a concrete well-used
trace (pool 2: NewPage, UnpinPage, DeletePage). -/
theorem C2_witness :
    validTrace (mkBPMI 2 1 0) [Op.newP, Op.unpin 0 false, Op.delete 0] = true ∧
    ((run (mkBPMI 2 1 0) [Op.newP, Op.unpin 0 false, Op.delete 0]).free_list.length
        + (pinnedResident (run (mkBPMI 2 1 0) [Op.newP, Op.unpin 0 false, Op.delete 0])).length
        + (unpinnedResident (run (mkBPMI 2 1 0) [Op.newP, Op.unpin 0 false, Op.delete 0])).length
      = (run (mkBPMI 2 1 0) [Op.newP, Op.unpin 0 false, Op.delete 0]).pool_size) :=
  ⟨by decide,
   (C2_partition_amended 2 1 0 (by decide) [Op.newP, Op.unpin 0 false, Op.delete 0]
     (by decide)).2.2.1⟩
